import Mathlib

/-!
Verification development for the `btc-eth-bridge` backend
(`backend/main.py`): a shallow embedding of the transaction-lifecycle
engine — the admission endpoints, the wrap and unwrap state machines,
the retry governor and the exponential-backoff gate — together with
theorems about the embedded definitions.

Conventions of the embedding:
* Python strings are modelled as lists of Unicode code points
  (`Str := List Nat`); `strB` converts a Lean string literal.
* `Decimal` arithmetic is modelled exactly as `ℚ`; Python `int()`
  truncation toward zero is `pyInt`.
* `datetime` values are rationals counting minutes; `timedelta(minutes=b)`
  is addition.
* Calls into the chain adapters (bitcoinrpc / web3) are fields of an
  environment record returning `Except Str α`: `.error msg` models a
  raised exception with message `msg`.  Multi-call adapter sequences that
  the claims never inspect individually (gas price + nonce + build + sign
  + send of a mint; createraw + sign + send of the native release) are
  folded into a single environment field.
* SQLAlchemy sessions are modelled by explicit lists of records; each
  `session.query(...).filter(status == S).all()` loop followed by
  `session.commit()` becomes a `List.map` over the record list with a
  status selector, and the next stage's query runs on the mapped list
  (mirroring the re-query after commit).
-/

unseal Rat.mul Rat.add Rat.sub Rat.inv Rat.ofScientific

namespace Bridge

/-- Python strings, as lists of Unicode code points. -/
abbrev Str := List Nat

/-- Code points of a Lean string literal, to write `Str` constants. -/
def strB (s : String) : Str := s.toList.map Char.toNat

/-- Boolean test that `p` is a leading segment of `l`
(Python `startswith` / the head test of substring search). -/
def isPfxB : Str → Str → Bool
  | [], _ => true
  | _ :: _, [] => false
  | a :: p, b :: l => a == b && isPfxB p l

/-- Boolean substring containment (Python `needle in haystack`). -/
def hasSub (p : Str) : Str → Bool
  | [] => isPfxB p []
  | b :: l => isPfxB p (b :: l) || hasSub p l

/-- Value of a hex digit code point (`0-9`, `a-f`, `A-F`), as
`binascii.unhexlify` accepts. -/
def hexVal (c : Nat) : Option Nat :=
  if 48 ≤ c ∧ c ≤ 57 then some (c - 48)
  else if 97 ≤ c ∧ c ≤ 102 then some (c - 87)
  else if 65 ≤ c ∧ c ≤ 70 then some (c - 55)
  else none

/-- Python `binascii.unhexlify`: pairs of hex digits to bytes; fails on an
odd length or a non-hex digit. -/
def unhexB : Str → Option (List Nat)
  | [] => some []
  | [_] => none
  | a :: b :: rest =>
    match hexVal a, hexVal b, unhexB rest with
    | some x, some y, some bs => some ((16 * x + y) :: bs)
    | _, _, _ => none

/-- Lower-case hex digit for a value in `[0, 16)` (clamped above). -/
def hexDigitB (n : Nat) : Nat :=
  if n < 10 then 48 + n else 87 + n % 16

/-- Two lower-case hex digits of a byte. -/
def byteHexB (b : Nat) : Str := [hexDigitB (b / 16), hexDigitB (b % 16)]

/-- Lower-case hex encoding of a byte list
(Python `binascii.hexlify(..).decode()`). -/
def hexB (bs : List Nat) : Str := bs.flatMap byteHexB

/-- Python `bytes.decode('utf-8')` restricted to the ASCII range the
bridge payloads use; a byte outside ASCII is modelled as a decode
failure. -/
def decodeAsciiB (bs : List Nat) : Option Str :=
  if bs.all (fun b => b < 128) then some bs else none

/-- Parse of the bridge payload `"<tag>:<wallet_id>-<recipient>"`: Python
`s.split(':')[1].split('-')` unpacked into exactly two names, `none`
modelling the `IndexError`/`ValueError` raised on any other shape. -/
def parsePayload (s : Str) : Option (Str × Str) :=
  match s.splitOn 58 with
  | _ :: p1 :: _ =>
    match p1.splitOn 45 with
    | [w, r] => some (w, r)
    | _ => none
  | _ => none

/-- Python `'0x' + a if not a.startswith('0x') else a`. -/
def ensureHexPfx (a : Str) : Str :=
  if isPfxB (strB "0x") a then a else 48 :: 120 :: a

/-- Python `str.replace(pat, '')` for a non-empty pattern: left-to-right,
non-overlapping removal of every occurrence (used on `'OP_RETURN '`). -/
def removeAllB (pat : Str) (l : Str) : Str :=
  go l.length l
where
  go : Nat → Str → Str
    | 0, l => l
    | _ + 1, [] => []
    | fuel + 1, a :: l =>
      if isPfxB pat (a :: l) then go fuel ((a :: l).drop pat.length)
      else a :: go fuel l

/-- Python `int()` on an exact rational: truncation toward zero. -/
def pyInt (q : ℚ) : ℤ := if 0 ≤ q then q.floor else q.ceil

-- Configuration constants of `backend/main.py`.

/-- Minimum bridged amount in whole BTB (`MIN_AMOUNT = 1`). -/
def MIN_AMOUNT : ℚ := 1

/-- Native-chain fee withheld on unwrap (`BTB_FEE = Decimal('0.01')`). -/
def BTB_FEE : ℚ := 1 / 100

/-- Wrap fee in whole WBTB coins (`ETH_FEE_IN_WBTB = 100`). -/
def ETH_FEE_IN_WBTB : ℕ := 100

/-- Base units per coin (`TokenUnit = 100000000`). -/
def TokenUnit : ℕ := 100000000

/-- Retry cap (`MAX_ATTEMPTS = 20`). -/
def MAX_ATTEMPTS : ℕ := 20

/-- Confirmation depth (`CONFIRMATIONS_REQUIRED = 1`). -/
def CONFIRMATIONS_REQUIRED : ℤ := 1

/-- Dust threshold (`DUST_THRESHOLD = Decimal('0.00000546')`). -/
def DUST_THRESHOLD : ℚ := 546 / 100000000

/-- The `TransactionStatus` enumeration. -/
inductive TxStatus
  | WRAP_BTB_TRANSACTION_BROADCASTED
  | WRAP_BTB_TRANSACTION_CONFIRMING
  | WBTB_MINTING_IN_PROGRESS
  | WRAP_COMPLETED
  | UNWRAP_ETH_TRANSACTION_INITIATED
  | UNWRAP_ETH_TRANSACTION_CONFIRMING
  | UNWRAP_ETH_TRANSACTION_CONFIRMED
  | WBTB_BURN_CONFIRMED
  | UNWRAP_BTB_TRANSACTION_CREATING
  | UNWRAP_BTB_TRANSACTION_BROADCASTED
  | UNWRAP_COMPLETED
  | FAILED_INSUFFICIENT_AMOUNT
  | FAILED_TRANSACTION_NOT_FOUND
  | FAILED_INSUFFICIENT_FUNDS
  | FAILED_TRANSACTION_UNKNOWN
  | FAILED_TRANSACTION_MAX_ATTEMPTS
deriving DecidableEq, Repr

/-- Contents of the serialised `exception_details` Text column: either the
usual JSON map from exception message to count, or the
`{"error": .., "revert_reason": ..}` object written by the unwrap revert
inspection (after which the record is terminal). -/
inductive ExcDetails
  | counts : List (Str × Nat) → ExcDetails
  | revertLog : Str → Str → ExcDetails
deriving DecidableEq, Repr

/-- Count stored under a key in the deserialised exception map (first
occurrence, matching Python dict semantics; absent key counts 0). -/
def lookupCount : List (Str × Nat) → Str → Nat
  | [], _ => 0
  | (k', v) :: rest, k => if k' = k then v else lookupCount rest k

/-- Python `d[msg] = d.get(msg, 0) + 1`: bump the first occurrence in
place, or append a fresh key with count 1. -/
def bumpCount : List (Str × Nat) → Str → List (Str × Nat)
  | [], k => [(k, 1)]
  | (k', v) :: rest, k =>
    if k' = k then (k', v + 1) :: rest else (k', v) :: bumpCount rest k

/-- Sum of all counts in the exception map. -/
def sumCounts (d : List (Str × Nat)) : ℕ := (d.map Prod.snd).sum

/-- Result of `json.loads(tx.exception_details or '{}')` as a count map.
The `revertLog` shape is only ever stored together with a terminal
status, so the governor never reloads it; it is mapped to the empty
count map. -/
def loadCounts : ExcDetails → List (Str × Nat)
  | .counts d => d
  | .revertLog _ _ => []

/-- Governor-managed columns shared by `WrapTransaction` and
`UnwrapTransaction`, as the view `update_exception_details` mutates. -/
structure GovView where
  excDetails : ExcDetails
  exceptionCount : ℕ
  lastExceptionTime : Option ℚ
  status : TxStatus
deriving DecidableEq, Repr

/-- The `update_exception_details(tx, e)` helper: bump the count under the
exception message, cap the total at `MAX_ATTEMPTS`, stamp the failure
time, and fail the record permanently when the cap is reached. -/
def updateExceptionDetails (g : GovView) (msg : Str) (now : ℚ) : GovView :=
  let d := bumpCount (loadCounts g.excDetails) msg
  let c := min (sumCounts d) MAX_ATTEMPTS
  { excDetails := .counts d
    exceptionCount := c
    lastExceptionTime := some now
    status :=
      if c = MAX_ATTEMPTS then .FAILED_TRANSACTION_MAX_ATTEMPTS else g.status }

/-- The `should_process_transaction(tx)` gate: allow immediately when no
failure is recorded, else wait `min(2 ** exception_count, 1440)` minutes
after the last failure. -/
def shouldProcessGov (exceptionCount : ℕ) (lastExceptionTime : Option ℚ)
    (now : ℚ) : Bool :=
  match lastExceptionTime with
  | none => true
  | some t =>
    decide (now ≥ t + ((min (2 ^ exceptionCount) (24 * 60) : ℕ) : ℚ))

/-- A row of the `wrap_transactions` table. -/
structure WrapTx where
  btbTxId : Str
  walletId : Str
  receivingAddress : Str
  amount : ℚ
  status : TxStatus
  ethTxHash : Option Str
  mintedWbtbAmount : Option ℚ
  excDetails : ExcDetails
  exceptionCount : ℕ
  lastExceptionTime : Option ℚ
deriving DecidableEq, Repr

/-- A row of the `unwrap_transactions` table. -/
structure UnwrapTx where
  ethTxHash : Str
  walletId : Option Str
  btbReceivingAddress : Option Str
  amount : Option ℚ
  status : TxStatus
  btbTxId : Option Str
  ethSender : Option Str
  sentBtbAmount : Option ℚ
  excDetails : ExcDetails
  exceptionCount : ℕ
  lastExceptionTime : Option ℚ
deriving DecidableEq, Repr

/-- `update_exception_details` applied to a wrap row. -/
def wrapUpdateException (tx : WrapTx) (msg : Str) (now : ℚ) : WrapTx :=
  let g := updateExceptionDetails
    ⟨tx.excDetails, tx.exceptionCount, tx.lastExceptionTime, tx.status⟩ msg now
  { tx with excDetails := g.excDetails, exceptionCount := g.exceptionCount,
            lastExceptionTime := g.lastExceptionTime, status := g.status }

/-- `update_exception_details` applied to an unwrap row. -/
def unwrapUpdateException (tx : UnwrapTx) (msg : Str) (now : ℚ) : UnwrapTx :=
  let g := updateExceptionDetails
    ⟨tx.excDetails, tx.exceptionCount, tx.lastExceptionTime, tx.status⟩ msg now
  { tx with excDetails := g.excDetails, exceptionCount := g.exceptionCount,
            lastExceptionTime := g.lastExceptionTime, status := g.status }

/-- `reset_exception_details` applied to a wrap row. -/
def wrapReset (tx : WrapTx) : WrapTx :=
  { tx with excDetails := .counts [], exceptionCount := 0,
            lastExceptionTime := none }

/-- `reset_exception_details` applied to an unwrap row. -/
def unwrapReset (tx : UnwrapTx) : UnwrapTx :=
  { tx with excDetails := .counts [], exceptionCount := 0,
            lastExceptionTime := none }

/-- `should_process_transaction` on a wrap row. -/
def wrapShouldProcess (tx : WrapTx) (now : ℚ) : Bool :=
  shouldProcessGov tx.exceptionCount tx.lastExceptionTime now

/-- `should_process_transaction` on an unwrap row. -/
def unwrapShouldProcess (tx : UnwrapTx) (now : ℚ) : Bool :=
  shouldProcessGov tx.exceptionCount tx.lastExceptionTime now

/-- A smart-chain transaction receipt as the engine reads it. -/
structure EthReceipt where
  status : ℕ
  blockNumber : ℤ
deriving DecidableEq, Repr

/-- A smart-chain transaction as `w3.eth.get_transaction` returns it. -/
structure EthTx where
  toAddr : Str
  fromAddr : Str
  input : List Nat
  value : ℕ
  gas : ℕ
  gasPrice : ℕ
deriving DecidableEq, Repr

/-- First four bytes of `keccak("burn(uint256,bytes)")`, the burn method
selector, computed from a keccak oracle. -/
def burnSelector (keccak : List Nat → List Nat) : List Nat :=
  (keccak (strB "burn(uint256,bytes)")).take 4

/-- Adapter calls consumed by `process_wrap_transactions`.  `mintBroadcast`
folds the gas-price/nonce/build/sign/send sequence of the mint issue into
one fallible call returning the mint transaction hash. -/
structure WrapEnv where
  getBtbConfirmations : Str → Except Str ℤ
  mintBroadcast : Str → ℤ → Except Str Str
  getTransactionReceipt : Option Str → Except Str (Option EthReceipt)

/-- Base units minted for a deposit: `int(amount * TokenUnit)` minus
`ETH_FEE_IN_WBTB * TokenUnit` (lines 589-591 of `main.py`). -/
def wrapMintSatoshis (amount : ℚ) : ℤ :=
  pyInt (amount * (TokenUnit : ℚ)) - (ETH_FEE_IN_WBTB : ℤ) * (TokenUnit : ℤ)

/-- One `WRAP_BTB_TRANSACTION_BROADCASTED` record through the first wrap
loop: wait for the deposit confirmation, then record the minted amount,
normalise the receiving address and issue the mint. -/
def wrapStage1Step (env : WrapEnv) (now : ℚ) (tx : WrapTx) : WrapTx :=
  match env.getBtbConfirmations tx.btbTxId with
  | .error e => wrapUpdateException tx e now
  | .ok conf =>
    if conf ≥ CONFIRMATIONS_REQUIRED then
      let satoshis := wrapMintSatoshis tx.amount
      let tx1 : WrapTx :=
        { tx with
          mintedWbtbAmount := some ((satoshis : ℚ) / (TokenUnit : ℚ)),
          receivingAddress := ensureHexPfx tx.receivingAddress }
      match env.mintBroadcast tx1.receivingAddress satoshis with
      | .error e => wrapUpdateException tx1 e now
      | .ok h =>
        wrapReset { tx1 with status := .WBTB_MINTING_IN_PROGRESS,
                             ethTxHash := some h }
    else tx

/-- One `WBTB_MINTING_IN_PROGRESS` record through the second wrap loop:
`WRAP_COMPLETED` iff a receipt is present with status 1, else
`FAILED_TRANSACTION_UNKNOWN` (also when the receipt lookup returns
`None`). -/
def wrapStage2Step (env : WrapEnv) (now : ℚ) (tx : WrapTx) : WrapTx :=
  match env.getTransactionReceipt tx.ethTxHash with
  | .error e => wrapUpdateException tx e now
  | .ok r =>
    match r with
    | some rcpt =>
      if rcpt.status = 1 then wrapReset { tx with status := .WRAP_COMPLETED }
      else wrapReset { tx with status := .FAILED_TRANSACTION_UNKNOWN }
    | none => wrapReset { tx with status := .FAILED_TRANSACTION_UNKNOWN }

/-- One record through a status-filtered engine loop: untouched unless its
status matches the query filter and the backoff gate admits it. -/
def wrapStageStep (sel : TxStatus) (step : WrapTx → WrapTx) (now : ℚ)
    (tx : WrapTx) : WrapTx :=
  if tx.status = sel then
    (if wrapShouldProcess tx now then step tx else tx)
  else tx

/-- A status-filtered sweep over the wrap table followed by a commit. -/
def wrapStage (sel : TxStatus) (step : WrapTx → WrapTx) (now : ℚ)
    (db : List WrapTx) : List WrapTx :=
  db.map (wrapStageStep sel step now)

/-- One scheduler tick of `process_wrap_transactions`: the broadcast sweep
commits, then the minting sweep re-queries the committed table. -/
def wrapTick (env : WrapEnv) (now : ℚ) (db : List WrapTx) : List WrapTx :=
  wrapStage .WBTB_MINTING_IN_PROGRESS (wrapStage2Step env now) now
    (wrapStage .WRAP_BTB_TRANSACTION_BROADCASTED (wrapStage1Step env now) now db)

/-- What one full wrap tick does to an individual record. -/
def wrapTickRecord (env : WrapEnv) (now : ℚ) : WrapTx → WrapTx :=
  fun tx =>
    wrapStageStep .WBTB_MINTING_IN_PROGRESS (wrapStage2Step env now) now
      (wrapStageStep .WRAP_BTB_TRANSACTION_BROADCASTED (wrapStage1Step env now)
        now tx)

/-- An unspent output returned by `listunspent`. -/
structure Utxo where
  txid : Str
  vout : ℕ
  amount : ℚ
deriving DecidableEq, Repr

/-- Adapter calls consumed by `process_unwrap_transactions`.
`createSignSendBtb` folds createrawtransaction /
signrawtransactionwithwallet / sendrawtransaction into one fallible call
returning the native transaction id. -/
structure UnwrapEnv where
  getTransactionReceipt : Str → Except Str (Option EthReceipt)
  getTransaction : Str → Except Str EthTx
  decodeFunctionInput : List Nat → Except Str (ℕ × List Nat)
  ethCall : EthTx → ℤ → Except Str Unit
  blockNumber : Except Str ℤ
  listUnspent : ℚ → ℚ → Except Str (List Utxo)
  createSignSendBtb : List (Str × ℕ) → List (Str × ℚ) → Str → Except Str Str
  getBtbConfirmations : Str → Except Str ℤ
  keccak : List Nat → List Nat
  bridgeBtbAddress : Str

/-- One `UNWRAP_ETH_TRANSACTION_INITIATED` record through the first unwrap
loop (lines 662-750 of `main.py`): on a success receipt re-decode the burn
call, enforce the minimum, extract the payload and advance to confirming;
on a failure receipt re-execute the call one block earlier and classify
the revert; on a pending (`None`) receipt do nothing. -/
def unwrapStage1Step (env : UnwrapEnv) (now : ℚ) (tx : UnwrapTx) : UnwrapTx :=
  match env.getTransactionReceipt tx.ethTxHash with
  | .error e => unwrapUpdateException tx e now
  | .ok none => tx
  | .ok (some rcpt) =>
    if rcpt.status = 1 then
      match env.getTransaction tx.ethTxHash with
      | .error e => unwrapUpdateException tx e now
      | .ok ethTx =>
        if ethTx.input.take 4 = burnSelector env.keccak then
          match env.decodeFunctionInput ethTx.input with
          | .error e => unwrapUpdateException tx e now
          | .ok (burntAmount, dataBytes) =>
            let amount : ℚ := (burntAmount : ℚ) / (TokenUnit : ℚ)
            if amount < MIN_AMOUNT then
              { tx with status := .FAILED_INSUFFICIENT_AMOUNT }
            else
              match decodeAsciiB dataBytes with
              | none => unwrapUpdateException tx (strB "UnicodeDecodeError") now
              | some dataStr =>
                match parsePayload dataStr with
                | none => unwrapUpdateException tx (strB "ValueError") now
                | some (w, r) =>
                  unwrapReset
                    { tx with walletId := some w, btbReceivingAddress := some r,
                              amount := some amount,
                              status := .UNWRAP_ETH_TRANSACTION_CONFIRMING }
        else tx
    else if rcpt.status = 0 then
      match env.getTransaction tx.ethTxHash with
      | .error e => unwrapUpdateException tx e now
      | .ok ethTx =>
        match env.ethCall ethTx (rcpt.blockNumber - 1) with
        | .ok _ => tx
        | .error revertReason =>
          if hasSub (strB "0xe450d38c") revertReason then
            { tx with status := .FAILED_INSUFFICIENT_FUNDS,
                      excDetails := .revertLog
                        (strB "Insufficient balance for unwrap") revertReason }
          else
            { tx with status := .FAILED_TRANSACTION_UNKNOWN,
                      excDetails := .revertLog
                        (strB "Unknown error occurred") revertReason }
    else unwrapReset tx

/-- One `UNWRAP_ETH_TRANSACTION_CONFIRMING` record through the second
unwrap loop: count confirmations from the current block height; a `None`
receipt raises a `TypeError` on subscripting and goes to the governor. -/
def unwrapStage2Step (env : UnwrapEnv) (now : ℚ) (tx : UnwrapTx) : UnwrapTx :=
  match env.getTransactionReceipt tx.ethTxHash with
  | .error e => unwrapUpdateException tx e now
  | .ok none => unwrapUpdateException tx (strB "TypeError") now
  | .ok (some rcpt) =>
    match env.blockNumber with
    | .error e => unwrapUpdateException tx e now
    | .ok cur =>
      if cur - rcpt.blockNumber ≥ CONFIRMATIONS_REQUIRED then
        unwrapReset { tx with status := .UNWRAP_ETH_TRANSACTION_CONFIRMED }
      else unwrapReset tx

/-- One `UNWRAP_ETH_TRANSACTION_CONFIRMED` record through the third unwrap
loop (lines 780-850 of `main.py`): gather UTXOs at the bridge address,
build the release outputs with an optional non-dust change output and the
`un:` OP_RETURN payload, then sign and broadcast.  `sent_btb_amount` is
assigned before the broadcast, so it survives a broadcast failure. -/
def unwrapStage3Step (env : UnwrapEnv) (now : ℚ) (tx : UnwrapTx) : UnwrapTx :=
  match tx.amount with
  | none => unwrapUpdateException tx (strB "InvalidOperation") now
  | some amt =>
    let amountToSend := amt - BTB_FEE
    let totalNeeded := amountToSend + BTB_FEE
    match env.listUnspent DUST_THRESHOLD totalNeeded with
    | .error e => unwrapUpdateException tx e now
    | .ok unspent =>
      if unspent.isEmpty then
        unwrapUpdateException tx (strB "No unspent transactions found") now
      else
        let totalAmount := (unspent.map Utxo.amount).sum
        if totalAmount < totalNeeded then
          unwrapUpdateException tx
            (strB "Not enough funds to create the transaction") now
        else
          let txInputs := unspent.map fun u => (u.txid, u.vout)
          let change := totalAmount - totalNeeded
          let recv := tx.btbReceivingAddress.getD (strB "None")
          let txOutputs :=
            (recv, amountToSend) ::
              (if change > DUST_THRESHOLD then [(env.bridgeBtbAddress, change)]
               else [])
          let tx1 := { tx with sentBtbAmount := some amountToSend }
          let recvNoPfx :=
            if isPfxB (strB "0x") recv then recv.drop 2 else recv
          let opReturnHex :=
            hexB (strB "un:" ++ tx.walletId.getD (strB "None") ++
              strB "-" ++ recvNoPfx)
          match env.createSignSendBtb txInputs txOutputs opReturnHex with
          | .error e => unwrapUpdateException tx1 e now
          | .ok btbId =>
            unwrapReset { tx1 with status := .UNWRAP_BTB_TRANSACTION_BROADCASTED,
                                   btbTxId := some btbId }

/-- One `UNWRAP_BTB_TRANSACTION_BROADCASTED` record through the fourth
unwrap loop: complete once the native release is confirmed. -/
def unwrapStage4Step (env : UnwrapEnv) (now : ℚ) (tx : UnwrapTx) : UnwrapTx :=
  match env.getBtbConfirmations (tx.btbTxId.getD (strB "None")) with
  | .error e => unwrapUpdateException tx e now
  | .ok conf =>
    if conf ≥ CONFIRMATIONS_REQUIRED then
      unwrapReset { tx with status := .UNWRAP_COMPLETED }
    else unwrapReset tx

/-- One record through a status-filtered unwrap engine loop. -/
def unwrapStageStep (sel : TxStatus) (step : UnwrapTx → UnwrapTx) (now : ℚ)
    (tx : UnwrapTx) : UnwrapTx :=
  if tx.status = sel then
    (if unwrapShouldProcess tx now then step tx else tx)
  else tx

/-- A status-filtered sweep over the unwrap table followed by a commit. -/
def unwrapStage (sel : TxStatus) (step : UnwrapTx → UnwrapTx) (now : ℚ)
    (db : List UnwrapTx) : List UnwrapTx :=
  db.map (unwrapStageStep sel step now)

/-- One scheduler tick of `process_unwrap_transactions`: four sweeps, each
re-querying the table committed by the previous one. -/
def unwrapTick (env : UnwrapEnv) (now : ℚ) (db : List UnwrapTx) :
    List UnwrapTx :=
  unwrapStage .UNWRAP_BTB_TRANSACTION_BROADCASTED (unwrapStage4Step env now) now
    (unwrapStage .UNWRAP_ETH_TRANSACTION_CONFIRMED (unwrapStage3Step env now) now
      (unwrapStage .UNWRAP_ETH_TRANSACTION_CONFIRMING (unwrapStage2Step env now)
        now
        (unwrapStage .UNWRAP_ETH_TRANSACTION_INITIATED (unwrapStage1Step env now)
          now db)))

/-- What one full unwrap tick does to an individual record. -/
def unwrapTickRecord (env : UnwrapEnv) (now : ℚ) : UnwrapTx → UnwrapTx :=
  fun tx =>
    unwrapStageStep .UNWRAP_BTB_TRANSACTION_BROADCASTED (unwrapStage4Step env now)
      now
      (unwrapStageStep .UNWRAP_ETH_TRANSACTION_CONFIRMED (unwrapStage3Step env now)
        now
        (unwrapStageStep .UNWRAP_ETH_TRANSACTION_CONFIRMING
          (unwrapStage2Step env now) now
          (unwrapStageStep .UNWRAP_ETH_TRANSACTION_INITIATED
            (unwrapStage1Step env now) now tx)))

/-- A decoded output of a native transaction as `decoderawtransaction`
returns it; `asm` is the script assembly with the `OP_RETURN ` marker and
hex payload for nulldata outputs. -/
structure BtbVout where
  value : ℚ
  scriptType : Str
  asm : Str
  address : Option Str
deriving DecidableEq, Repr

/-- Adapter calls consumed by the `/initiate-wrap/` endpoint. -/
structure WrapAdmitEnv where
  decodeRawTransaction : Str → Except Str (List BtbVout)
  sendRawTransaction : Str → Except Str Str
  bridgeBtbAddress : Str

/-- Sum of decoded output values paid to the bridge custodial address. -/
def bridgedSum (bridgeAddr : Str) (vouts : List BtbVout) : ℚ :=
  ((vouts.filter (fun v => decide (v.address = some bridgeAddr))).map
    BtbVout.value).sum

/-- A fresh wrap row as `/initiate-wrap/` inserts it. -/
def newWrapRec (btbTxId walletId recvAddr : Str) (amount : ℚ) : WrapTx :=
  { btbTxId := btbTxId, walletId := walletId, receivingAddress := recvAddr,
    amount := amount, status := .WRAP_BTB_TRANSACTION_BROADCASTED,
    ethTxHash := none, mintedWbtbAmount := none, excDetails := .counts [],
    exceptionCount := 0, lastExceptionTime := none }

/-- The `/initiate-wrap/` endpoint: decode the signed native transaction,
read the OP_RETURN payload, sum the value paid to the bridge address,
enforce `MIN_AMOUNT`, broadcast, and insert the initial record.  Any
`.error` result is returned to the client as HTTP 400 with no record
created; the unique index on `btb_tx_id` rejects a duplicate insert. -/
def initiateWrap (env : WrapAdmitEnv) (signedTx : Str) (db : List WrapTx) :
    Except Str (Str × List WrapTx) :=
  match env.decodeRawTransaction signedTx with
  | .error e => .error e
  | .ok vouts =>
    match vouts.find? (fun v => decide (v.scriptType = strB "nulldata")) with
    | none => .error (strB "StopIteration")
    | some nv =>
      match unhexB (removeAllB (strB "OP_RETURN ") nv.asm) with
      | none => .error (strB "binascii.Error")
      | some payloadBytes =>
        match decodeAsciiB payloadBytes with
        | none => .error (strB "UnicodeDecodeError")
        | some payload =>
          match parsePayload payload with
          | none => .error (strB "ValueError")
          | some (walletId, recvAddr0) =>
            let recvAddr := ensureHexPfx recvAddr0
            let amount := bridgedSum env.bridgeBtbAddress vouts
            if amount < MIN_AMOUNT then
              .error (strB "Amount sent to bridge address is less than the minimum amount")
            else
              match env.sendRawTransaction signedTx with
              | .error e => .error e
              | .ok btbTxId =>
                if db.any (fun r => decide (r.btbTxId = btbTxId)) then
                  .error (strB "IntegrityError")
                else
                  .ok (btbTxId,
                    db ++ [newWrapRec btbTxId walletId recvAddr amount])

/-- A signed smart-chain transaction as `TransactionBuilder().decode`
returns it. -/
structure DecodedEthTx where
  toAddr : Str
  sender : Str
  data : List Nat
deriving DecidableEq, Repr

/-- Adapter calls consumed by the `/initiate-unwrap/` endpoint. -/
structure UnwrapAdmitEnv where
  decodeSignedTx : List Nat → Except Str DecodedEthTx
  toChecksum : Str → Str
  decodeFunctionInput : List Nat → Except Str (ℕ × List Nat)
  keccak : List Nat → List Nat
  wbtbAddress : Str

/-- Modelled from the spec: the smart-chain mempool broadcast
(`w3.eth.send_raw_transaction`).  The hash of a transaction is the keccak
of its signed bytes, and re-broadcasting an already-known transaction
raises an error whose message contains "already known"; both facts are
behaviour of the external node, consumed by the admission path. -/
def ethSendRaw (keccak : List Nat → List Nat) (mempool : List (List Nat))
    (bytes : List Nat) : Except Str (List Nat) × List (List Nat) :=
  if bytes ∈ mempool then (.error (strB "already known"), mempool)
  else (.ok (keccak bytes), bytes :: mempool)

/-- A fresh unwrap row as `/initiate-unwrap/` inserts it. -/
def newUnwrapRec (ethTxHash walletId btbRecv ethSender : Str) (amount : ℚ) :
    UnwrapTx :=
  { ethTxHash := ethTxHash, walletId := some walletId,
    btbReceivingAddress := some btbRecv, amount := some amount,
    status := .UNWRAP_ETH_TRANSACTION_INITIATED, btbTxId := none,
    ethSender := some ethSender, sentBtbAmount := none,
    excDetails := .counts [], exceptionCount := 0, lastExceptionTime := none }

/-- The `/initiate-unwrap/` endpoint: decode the signed transaction, check
it targets the WBTB contract with the burn selector, decode `(amount,
data)` and the payload, broadcast (treating "already known" as success
with the locally derived keccak hash), and insert the initial record.
Note that no minimum-amount check is performed here.  Returns the result
sent to the client together with the updated table and mempool. -/
def initiateUnwrap (env : UnwrapAdmitEnv) (mempool : List (List Nat))
    (db : List UnwrapTx) (signedBytes : List Nat) :
    Except Str (List Nat) × List UnwrapTx × List (List Nat) :=
  match env.decodeSignedTx signedBytes with
  | .error e => (.error e, db, mempool)
  | .ok dtx =>
    if env.toChecksum dtx.toAddr ≠ env.toChecksum env.wbtbAddress then
      (.error (strB "Transaction is not to the right WBTB contract"), db,
        mempool)
    else if dtx.data.take 4 = burnSelector env.keccak then
      match env.decodeFunctionInput dtx.data with
      | .error e => (.error e, db, mempool)
      | .ok (burnt, dataBytes) =>
        let amountBtb : ℚ := (burnt : ℚ) / (TokenUnit : ℚ)
        match decodeAsciiB dataBytes with
        | none => (.error (strB "UnicodeDecodeError"), db, mempool)
        | some dataStr =>
          match parsePayload dataStr with
          | none => (.error (strB "ValueError"), db, mempool)
          | some (walletId, btbRecv) =>
            let ethSender := env.toChecksum dtx.sender
            match ethSendRaw env.keccak mempool signedBytes with
            | (.ok h, mempool1) =>
              if db.any (fun r => decide (r.ethTxHash = h)) then
                (.error (strB "IntegrityError"), db, mempool1)
              else
                (.ok h,
                  db ++ [newUnwrapRec h walletId btbRecv ethSender amountBtb],
                  mempool1)
            | (.error e, mempool1) =>
              if hasSub (strB "already known") e then
                let h := env.keccak signedBytes
                if db.any (fun r => decide (r.ethTxHash = h)) then
                  (.error (strB "IntegrityError"), db, mempool1)
                else
                  (.ok h,
                    db ++ [newUnwrapRec h walletId btbRecv ethSender amountBtb],
                    mempool1)
              else (.error e, db, mempool1)
    else
      (.error (strB "Transaction is not a burn function call"), db, mempool)

-- Governor lemmas.

/-- Bumping a key in the exception map increases exactly its stored count
by one. -/
theorem lookupCount_bumpCount (d : List (Str × Nat)) (k : Str) :
    lookupCount (bumpCount d k) k = lookupCount d k + 1 := by
  induction d with
  | nil => simp [bumpCount, lookupCount]
  | cons p rest ih =>
    obtain ⟨k', v⟩ := p
    by_cases h : k' = k <;> simp [bumpCount, lookupCount, h, ih]

/-- C6: after every governor update on an exception, the count stored in
`exception_history` under the exception's message increases by one,
`attempts` equals `min(sum of all counts, MAX_ATTEMPTS)`, `last_error_at`
is set to the current time, and reaching `MAX_ATTEMPTS` forces the state
to `FAILED_TRANSACTION_MAX_ATTEMPTS`. -/
theorem C6_governor_update (d : List (Str × Nat)) (c : ℕ) (t : Option ℚ)
    (st : TxStatus) (msg : Str) (now : ℚ) :
    (∃ d', (updateExceptionDetails ⟨.counts d, c, t, st⟩ msg now).excDetails
        = .counts d' ∧
      lookupCount d' msg = lookupCount d msg + 1 ∧
      (updateExceptionDetails ⟨.counts d, c, t, st⟩ msg now).exceptionCount
        = min (sumCounts d') MAX_ATTEMPTS) ∧
    (updateExceptionDetails ⟨.counts d, c, t, st⟩ msg now).lastExceptionTime
      = some now ∧
    ((updateExceptionDetails ⟨.counts d, c, t, st⟩ msg now).exceptionCount
        = MAX_ATTEMPTS →
      (updateExceptionDetails ⟨.counts d, c, t, st⟩ msg now).status
        = .FAILED_TRANSACTION_MAX_ATTEMPTS) := by
  refine ⟨⟨bumpCount d msg, rfl, lookupCount_bumpCount d msg, rfl⟩, rfl, ?_⟩
  intro h
  simp only [updateExceptionDetails, loadCounts] at h ⊢
  simp [h]

/-- Closed instance of `C6_governor_update`, discharging its implication
at a concrete record one failure away from the attempt cap. -/
theorem C6_governor_update_witness :
    (updateExceptionDetails
        ⟨.counts [(strB "timeout", 19)], 19, some 7, .WBTB_MINTING_IN_PROGRESS⟩
        (strB "timeout") 8).exceptionCount = MAX_ATTEMPTS ∧
    (updateExceptionDetails
        ⟨.counts [(strB "timeout", 19)], 19, some 7, .WBTB_MINTING_IN_PROGRESS⟩
        (strB "timeout") 8).status = .FAILED_TRANSACTION_MAX_ATTEMPTS ∧
    (updateExceptionDetails
        ⟨.counts [(strB "timeout", 19)], 19, some 7, .WBTB_MINTING_IN_PROGRESS⟩
        (strB "timeout") 8).lastExceptionTime = some 8 := by
  refine ⟨by decide, ?_, by decide⟩
  exact (C6_governor_update [(strB "timeout", 19)] 19 (some 7)
    .WBTB_MINTING_IN_PROGRESS (strB "timeout") 8).2.2 (by decide)

/-- C7: `should_process` returns true iff no failure is recorded or the
current time is at or after `last_error_at + min(2^attempts, 1440)`
minutes, and returns false strictly before that instant. -/
theorem C7_backoff_gate (c : ℕ) (t : Option ℚ) (now : ℚ) :
    (shouldProcessGov c t now = true ↔
      (t = none ∨ ∃ t0, t = some t0 ∧
        t0 + ((min (2 ^ c) 1440 : ℕ) : ℚ) ≤ now)) ∧
    (∀ t0, t = some t0 → now < t0 + ((min (2 ^ c) 1440 : ℕ) : ℚ) →
      shouldProcessGov c t now = false) := by
  have h1440 : (24 * 60 : ℕ) = 1440 := by norm_num
  cases t with
  | none => simp [shouldProcessGov]
  | some t0 =>
    constructor
    · simp [shouldProcessGov, h1440, ge_iff_le]
    · intro t1 ht hlt
      cases ht
      simp only [shouldProcessGov, h1440, decide_eq_false_iff_not, ge_iff_le,
        not_le]
      exact hlt

/-- Closed instance of `C7_backoff_gate`: with 3 recorded attempts and a
failure at minute 0 the gate refuses at minute 7 and admits at minute 8. -/
theorem C7_backoff_gate_witness :
    shouldProcessGov 3 (some 0) 7 = false ∧
    shouldProcessGov 3 (some 0) 8 = true := by
  constructor
  · exact (C7_backoff_gate 3 (some 0) 7).2 0 rfl (by norm_num)
  · exact (C7_backoff_gate 3 (some 0) 8).1.mpr
      (Or.inr ⟨0, rfl, by norm_num⟩)

-- C2: the minted amount goes negative for admitted deposits below the fee.

/-- A wrap environment whose deposit is confirmed and whose mint broadcast
succeeds, to evaluate the mint computation on a concrete record. -/
def c2Env : WrapEnv :=
  { getBtbConfirmations := fun _ => .ok 1
    mintBroadcast := fun _ _ => .ok (strB "h1")
    getTransactionReceipt := fun _ => .ok none }

/-- C2 (code bug): a deposit of exactly `MIN_AMOUNT = 1` BTB passes the
admission gate, yet the engine computes
`int(1 * TokenUnit) - ETH_FEE_IN_WBTB * TokenUnit = -9900000000 < 0`
base units, persists `minted_wbtb_amount = -99`, and passes the negative
amount to `mint(address, uint256)` — contradicting the spec's requirement
that the minted amount must not go negative. -/
theorem C2_minted_amount_negative :
    MIN_AMOUNT ≤ (1 : ℚ) ∧
    wrapMintSatoshis 1 = -9900000000 ∧
    wrapMintSatoshis 1 < 0 ∧
    (wrapStage1Step c2Env 0
        (newWrapRec (strB "t1") (strB "w1") (strB "0xab") 1)).mintedWbtbAmount
      = some (-99) ∧
    (wrapStage1Step c2Env 0
        (newWrapRec (strB "t1") (strB "w1") (strB "0xab") 1)).status
      = .WBTB_MINTING_IN_PROGRESS := by
  refine ⟨by norm_num [MIN_AMOUNT], by decide, by decide, by decide, by decide⟩

-- C4: transitions out of WBTB_MINTING_IN_PROGRESS.

/-- A record sitting in `WBTB_MINTING_IN_PROGRESS` with its mint hash
persisted. -/
def c4MintingTx : WrapTx :=
  { newWrapRec (strB "t4") (strB "w4") (strB "0xab") 150 with
    status := .WBTB_MINTING_IN_PROGRESS, ethTxHash := some (strB "h4") }

/-- A wrap environment whose receipt lookup reports the mint as pending
(`None`). -/
def c4PendingEnv : WrapEnv :=
  { getBtbConfirmations := fun _ => .error (strB "unused")
    mintBroadcast := fun _ _ => .error (strB "unused")
    getTransactionReceipt := fun _ => .ok none }

/-- A wrap environment whose receipt lookup returns a success receipt. -/
def c4SuccessEnv : WrapEnv :=
  { getBtbConfirmations := fun _ => .error (strB "unused")
    mintBroadcast := fun _ _ => .error (strB "unused")
    getTransactionReceipt := fun _ => .ok (some ⟨1, 5⟩) }

/-- C4 counterexample: on a null (pending) receipt the engine does not
leave the record in `WBTB_MINTING_IN_PROGRESS` — it moves it to
`FAILED_TRANSACTION_UNKNOWN`. -/
theorem C4_pending_receipt_not_left_unchanged :
    c4MintingTx.status = .WBTB_MINTING_IN_PROGRESS ∧
    c4PendingEnv.getTransactionReceipt c4MintingTx.ethTxHash = .ok none ∧
    (wrapStage2Step c4PendingEnv 0 c4MintingTx).status
      = .FAILED_TRANSACTION_UNKNOWN := by
  refine ⟨by decide, rfl, by decide⟩

/-- C4 as amended: a `WBTB_MINTING_IN_PROGRESS` record advances to
`WRAP_COMPLETED` exactly when the receipt lookup yields a receipt with
status 1; a status-0 receipt and a null (pending) receipt both move it to
`FAILED_TRANSACTION_UNKNOWN`; only a receipt-lookup exception leaves the
state unchanged (below the attempt cap), via the retry governor. -/
theorem C4_minting_receipt_transitions (env : WrapEnv) (now : ℚ)
    (tx : WrapTx) :
    (∀ rcpt, env.getTransactionReceipt tx.ethTxHash = .ok (some rcpt) →
      (wrapStage2Step env now tx).status =
        (if rcpt.status = 1 then .WRAP_COMPLETED
         else .FAILED_TRANSACTION_UNKNOWN)) ∧
    (env.getTransactionReceipt tx.ethTxHash = .ok none →
      (wrapStage2Step env now tx).status = .FAILED_TRANSACTION_UNKNOWN) ∧
    (∀ e, env.getTransactionReceipt tx.ethTxHash = .error e →
      sumCounts (bumpCount (loadCounts tx.excDetails) e) < MAX_ATTEMPTS →
      (wrapStage2Step env now tx).status = tx.status) ∧
    (tx.status = .WBTB_MINTING_IN_PROGRESS →
      ((wrapStage2Step env now tx).status = .WRAP_COMPLETED ↔
        ∃ rcpt, env.getTransactionReceipt tx.ethTxHash = .ok (some rcpt) ∧
          rcpt.status = 1)) := by
  refine ⟨?_, ?_, ?_, ?_⟩
  · intro rcpt h
    by_cases hs : rcpt.status = 1 <;>
      simp [wrapStage2Step, h, hs, wrapReset]
  · intro h
    simp [wrapStage2Step, h, wrapReset]
  · intro e h hlt
    simp only [wrapStage2Step, h, wrapUpdateException, updateExceptionDetails]
    have : ¬ min (sumCounts (bumpCount (loadCounts tx.excDetails) e))
        MAX_ATTEMPTS = MAX_ATTEMPTS := by omega
    simp [this]
  · intro hst
    cases h : env.getTransactionReceipt tx.ethTxHash with
    | error e =>
      simp only [wrapStage2Step, h, wrapUpdateException, updateExceptionDetails]
      constructor
      · intro hc
        by_cases hm : min (sumCounts (bumpCount (loadCounts tx.excDetails) e))
            MAX_ATTEMPTS = MAX_ATTEMPTS <;> simp [hm, hst] at hc
      · rintro ⟨rcpt, hr, -⟩
        simp [h] at hr
    | ok r =>
      cases r with
      | none =>
        simp [wrapStage2Step, h, wrapReset]
      | some rcpt =>
        by_cases hs : rcpt.status = 1 <;>
          simp [wrapStage2Step, h, hs, wrapReset]

/-- Closed instance of `C4_minting_receipt_transitions`: a status-1
receipt completes the concrete minting record. -/
theorem C4_minting_receipt_transitions_witness :
    (wrapStage2Step c4SuccessEnv 0 c4MintingTx).status = .WRAP_COMPLETED := by
  have h := (C4_minting_receipt_transitions c4SuccessEnv 0 c4MintingTx).1
    ⟨1, 5⟩ rfl
  simpa using h

-- C10: terminal states are absorbing.

/-- The terminal states named by the claim: the two completion states and
every `FAILED_*` state. -/
def isTerminalStatus : TxStatus → Bool
  | .WRAP_COMPLETED => true
  | .UNWRAP_COMPLETED => true
  | .FAILED_INSUFFICIENT_AMOUNT => true
  | .FAILED_TRANSACTION_NOT_FOUND => true
  | .FAILED_INSUFFICIENT_FUNDS => true
  | .FAILED_TRANSACTION_UNKNOWN => true
  | .FAILED_TRANSACTION_MAX_ATTEMPTS => true
  | _ => false

/-- C10: each engine tick acts on the table record-by-record, every sweep
selects records only by the non-terminal status it handles, and a record
in `WRAP_COMPLETED`, `UNWRAP_COMPLETED` or any `FAILED_*` state is left
exactly as it is by a tick of either engine. -/
theorem C10_terminal_states_absorbing :
    (∀ env now db, wrapTick env now db = db.map (wrapTickRecord env now)) ∧
    (∀ env now db, unwrapTick env now db = db.map (unwrapTickRecord env now)) ∧
    (∀ env now (tx : WrapTx), isTerminalStatus tx.status = true →
      wrapTickRecord env now tx = tx) ∧
    (∀ env now (tx : UnwrapTx), isTerminalStatus tx.status = true →
      unwrapTickRecord env now tx = tx) := by
  refine ⟨?_, ?_, ?_, ?_⟩
  · intro env now db
    simp [wrapTick, wrapStage, wrapTickRecord, List.map_map]
  · intro env now db
    simp [unwrapTick, unwrapStage, unwrapTickRecord, List.map_map]
  · intro env now tx h
    obtain ⟨a, b, c, d, st, e, f, g, i, j⟩ := tx
    cases st <;> simp_all [isTerminalStatus, wrapTickRecord, wrapStageStep]
  · intro env now tx h
    obtain ⟨a, b, c, d, st, e, f, g, i, j, k⟩ := tx
    cases st <;> simp_all [isTerminalStatus, unwrapTickRecord, unwrapStageStep]

/-- An unwrap environment that fails every adapter call, for witnesses
that must not depend on adapter behaviour. -/
def noopUnwrapEnv : UnwrapEnv :=
  { getTransactionReceipt := fun _ => .error (strB "unused")
    getTransaction := fun _ => .error (strB "unused")
    decodeFunctionInput := fun _ => .error (strB "unused")
    ethCall := fun _ _ => .error (strB "unused")
    blockNumber := .error (strB "unused")
    listUnspent := fun _ _ => .error (strB "unused")
    createSignSendBtb := fun _ _ _ => .error (strB "unused")
    getBtbConfirmations := fun _ => .error (strB "unused")
    keccak := fun l => l
    bridgeBtbAddress := strB "bridge" }

/-- A completed wrap record and a permanently failed unwrap record, to
instantiate the absorption theorem. -/
def c10DoneWrapTx : WrapTx :=
  { newWrapRec (strB "t10") (strB "w10") (strB "0xab") 150 with
    status := .WRAP_COMPLETED, ethTxHash := some (strB "h10"),
    mintedWbtbAmount := some 50 }

/-- A terminal unwrap record for the absorption witness. -/
def c10FailedUnwrapTx : UnwrapTx :=
  { ethTxHash := strB "b10", walletId := some (strB "w10"),
    btbReceivingAddress := some (strB "maddr"), amount := some 20000,
    status := .FAILED_INSUFFICIENT_FUNDS, btbTxId := none,
    ethSender := some (strB "0xcd"), sentBtbAmount := none,
    excDetails := .revertLog (strB "Insufficient balance for unwrap")
      (strB "0xe450d38c"), exceptionCount := 0, lastExceptionTime := none }

/-- Closed instance of `C10_terminal_states_absorbing` on concrete
terminal records. -/
theorem C10_terminal_states_absorbing_witness :
    wrapTickRecord c4PendingEnv 0 c10DoneWrapTx = c10DoneWrapTx ∧
    unwrapTickRecord noopUnwrapEnv 0 c10FailedUnwrapTx = c10FailedUnwrapTx := by
  constructor
  · exact C10_terminal_states_absorbing.2.2.1 c4PendingEnv 0 c10DoneWrapTx
      (by decide)
  · exact C10_terminal_states_absorbing.2.2.2 noopUnwrapEnv 0 c10FailedUnwrapTx
      (by decide)

-- C5: revert inspection of failed burns.

/-- Modelled from the spec: the smart-chain adapter surfaces the revert
data of a failed off-chain `call` as an exception whose text is the
`0x`-prefixed lower-case hex encoding of the raw revert payload bytes;
the engine only ever sees that text (`str(call_exception)`). -/
def renderRevert (data : List Nat) : Str := 48 :: 120 :: hexB data

/-- Hex digits are never the letter `x` (code point 120). -/
theorem hexDigitB_ne_x (n : ℕ) : hexDigitB n ≠ 120 := by
  unfold hexDigitB
  split
  · omega
  · have : n % 16 < 16 := Nat.mod_lt _ (by omega)
    omega

/-- Unfolding of the hex encoding over a leading byte. -/
theorem hexB_cons (a : ℕ) (l : List Nat) :
    hexB (a :: l) = byteHexB a ++ hexB l := rfl

/-- The letter `x` does not occur in a hex encoding. -/
theorem x_not_mem_hexB (data : List Nat) : 120 ∉ hexB data := by
  intro h
  obtain ⟨b, -, hc⟩ := List.mem_flatMap.mp h
  simp only [byteHexB, List.mem_cons, List.not_mem_nil, or_false] at hc
  rcases hc with h1 | h1
  · exact hexDigitB_ne_x _ h1.symm
  · exact hexDigitB_ne_x _ h1.symm

/-- Hex digits determine their value below 16. -/
theorem hexDigitB_inj {m n : ℕ} (hm : m < 16) (hn : n < 16)
    (h : hexDigitB m = hexDigitB n) : m = n := by
  have em : m % 16 = m := Nat.mod_eq_of_lt hm
  have en : n % 16 = n := Nat.mod_eq_of_lt hn
  unfold hexDigitB at h
  rw [em, en] at h
  split at h <;> split at h <;> omega

/-- Two hex digits determine their byte, and cancellation across an
append. -/
theorem byteHexB_append_inj {a d : ℕ} (ha : a < 256) (hd : d < 256)
    {u v : Str} (h : byteHexB a ++ u = byteHexB d ++ v) : a = d ∧ u = v := by
  simp only [byteHexB, List.cons_append, List.nil_append, List.cons.injEq] at h
  obtain ⟨h1, h2, h3⟩ := h
  have hq : a / 16 = d / 16 :=
    hexDigitB_inj (by omega) (by omega) h1
  have hr : a % 16 = d % 16 :=
    hexDigitB_inj (Nat.mod_lt _ (by omega)) (Nat.mod_lt _ (by omega)) h2
  exact ⟨by omega, h3⟩

/-- The hex encoding of one byte list is a leading segment of another's
exactly when the first bytes agree (all bytes below 256). -/
theorem hexB_leading_iff (sel : List Nat) (hsel : ∀ b ∈ sel, b < 256) :
    ∀ data, (∀ b ∈ data, b < 256) →
      ((∃ t, hexB sel ++ t = hexB data) ↔ data.take sel.length = sel) := by
  induction sel with
  | nil =>
    intro data _
    simp [hexB]
  | cons a sel' ih =>
    intro data hdata
    cases data with
    | nil =>
      constructor
      · rintro ⟨t, ht⟩
        simp [hexB, byteHexB] at ht
      · intro h
        simp at h
    | cons d data' =>
      have ha : a < 256 := hsel a (by simp)
      have hd : d < 256 := hdata d (by simp)
      have hsel' : ∀ b ∈ sel', b < 256 := fun b hb => hsel b (by simp [hb])
      have hdata' : ∀ b ∈ data', b < 256 := fun b hb => hdata b (by simp [hb])
      constructor
      · rintro ⟨t, ht⟩
        have ht' : byteHexB a ++ (hexB sel' ++ t)
            = byteHexB d ++ hexB data' := by
          simpa [hexB, List.append_assoc] using ht
        obtain ⟨had, hrest⟩ := byteHexB_append_inj ha hd ht'
        have := (ih hsel' data' hdata').mp ⟨t, hrest⟩
        simp [List.take, had, this]
      · intro h
        simp only [List.length_cons, List.take_succ_cons, List.cons.injEq] at h
        obtain ⟨had, htake⟩ := h
        obtain ⟨t, ht⟩ := (ih hsel' data' hdata').mpr htake
        refine ⟨t, ?_⟩
        rw [hexB_cons, hexB_cons, had, List.append_assoc, ht]

/-- `isPfxB` decides the leading-segment relation. -/
theorem isPfxB_iff (p : Str) : ∀ l, isPfxB p l = true ↔ ∃ t, p ++ t = l := by
  induction p with
  | nil => intro l; simp [isPfxB]
  | cons a p' ih =>
    intro l
    cases l with
    | nil => simp [isPfxB]
    | cons b l' =>
      simp only [isPfxB, Bool.and_eq_true, beq_iff_eq, ih]
      constructor
      · rintro ⟨hab, t, ht⟩
        exact ⟨t, by simp [hab, ht]⟩
      · rintro ⟨t, ht⟩
        simp only [List.cons_append, List.cons.injEq] at ht
        exact ⟨ht.1, t, ht.2⟩

/-- `hasSub` decides substring containment (Python `in`). -/
theorem hasSub_iff (p : Str) : ∀ l, hasSub p l = true ↔
    ∃ s t, s ++ (p ++ t) = l := by
  intro l
  induction l with
  | nil =>
    cases p <;> simp [hasSub, isPfxB]
  | cons b l' ih =>
    simp only [hasSub, Bool.or_eq_true, isPfxB_iff, ih]
    constructor
    · rintro (⟨t, ht⟩ | ⟨s, t, hst⟩)
      · exact ⟨[], t, by simpa using ht⟩
      · exact ⟨b :: s, t, by simp [hst]⟩
    · rintro ⟨s, t, hst⟩
      cases s with
      | nil => exact Or.inl ⟨t, by simpa using hst⟩
      | cons c s' =>
        simp only [List.cons_append, List.cons.injEq] at hst
        exact Or.inr ⟨s', t, hst.2⟩

/-- The engine's substring test `"0xe450d38c" in str(call_exception)`
holds on a rendered revert exactly when the revert payload's selector
(first four bytes) is `0xe450d38c`. -/
theorem hasSub_renderRevert_iff (data : List Nat)
    (hdata : ∀ b ∈ data, b < 256) :
    hasSub (strB "0xe450d38c") (renderRevert data) = true ↔
      data.take 4 = [228, 80, 211, 140] := by
  have hpat : strB "0xe450d38c" = 48 :: 120 :: hexB [228, 80, 211, 140] := by
    decide
  have hsel : ∀ b ∈ [228, 80, 211, 140], b < 256 := by decide
  constructor
  · intro h
    obtain ⟨s, t, hst⟩ := (hasSub_iff _ _).mp h
    rw [hpat] at hst
    cases s with
    | nil =>
      simp only [renderRevert, List.nil_append, List.cons_append,
        List.cons.injEq] at hst
      obtain ⟨-, -, hrest⟩ := hst
      have := (hexB_leading_iff [228, 80, 211, 140] hsel data hdata).mp
        ⟨t, hrest⟩
      simpa using this
    | cons c s' =>
      simp only [renderRevert, List.cons_append, List.cons.injEq] at hst
      obtain ⟨-, hst2⟩ := hst
      cases s' with
      | nil =>
        simp only [List.nil_append, List.cons_append, List.cons.injEq] at hst2
        omega
      | cons c' s'' =>
        simp only [List.cons_append, List.cons.injEq] at hst2
        obtain ⟨-, hst3⟩ := hst2
        exfalso
        apply x_not_mem_hexB data
        rw [← hst3]
        simp
  · intro h
    apply (hasSub_iff _ _).mpr
    obtain ⟨t, ht⟩ := (hexB_leading_iff [228, 80, 211, 140] hsel data
      hdata).mpr (by simpa using h)
    refine ⟨[], t, ?_⟩
    rw [hpat]
    simp only [renderRevert, List.nil_append, List.cons_append,
      List.append_assoc]
    rw [ht]

/-- C5: when a burn receipt reports status 0, the engine re-executes the
transaction as an off-chain call at the block immediately before the
failed block; if the captured revert data's selector matches `0xe450d38c`
(bytes `[228, 80, 211, 140]`) the record goes to terminal
`FAILED_INSUFFICIENT_FUNDS`, and for any other revert it goes to
`FAILED_TRANSACTION_UNKNOWN`. -/
theorem C5_revert_inspection (env : UnwrapEnv) (now : ℚ) (tx : UnwrapTx)
    (rcpt : EthReceipt) (ethTx : EthTx) (data : List Nat) (msg : Str)
    (h0 : env.getTransactionReceipt tx.ethTxHash = .ok (some rcpt))
    (h1 : rcpt.status = 0)
    (h2 : env.getTransaction tx.ethTxHash = .ok ethTx)
    (h3 : env.ethCall ethTx (rcpt.blockNumber - 1) = .error msg)
    (h4 : msg = renderRevert data)
    (h5 : ∀ b ∈ data, b < 256) :
    ((unwrapStage1Step env now tx).status = .FAILED_INSUFFICIENT_FUNDS ↔
      data.take 4 = [228, 80, 211, 140]) ∧
    (data.take 4 ≠ [228, 80, 211, 140] →
      (unwrapStage1Step env now tx).status = .FAILED_TRANSACTION_UNKNOWN) := by
  have hns : ¬ rcpt.status = 1 := by omega
  by_cases hmatch : hasSub (strB "0xe450d38c") msg = true
  · have hsel := (hasSub_renderRevert_iff data h5).mp (h4 ▸ hmatch)
    constructor
    · simp [unwrapStage1Step, h0, hns, h1, h2, h3, hmatch, hsel]
    · intro hne
      exact absurd hsel hne
  · have hsel : ¬ data.take 4 = [228, 80, 211, 140] := fun hc =>
      hmatch ((hasSub_renderRevert_iff data h5).mpr hc |>.symm ▸ (h4 ▸ rfl))
    constructor
    · simp [unwrapStage1Step, h0, hns, h1, h2, h3, hmatch, hsel]
    · intro _
      simp [unwrapStage1Step, h0, hns, h1, h2, h3, hmatch]

/-- A concrete burn record whose receipt failed at block 9 and whose
re-execution at block 8 reverts with the `InsufficientBalance` selector. -/
def c5Tx : UnwrapTx :=
  { ethTxHash := strB "b5", walletId := none, btbReceivingAddress := none,
    amount := some 20000, status := .UNWRAP_ETH_TRANSACTION_INITIATED,
    btbTxId := none, ethSender := some (strB "0xcd"), sentBtbAmount := none,
    excDetails := .counts [], exceptionCount := 0, lastExceptionTime := none }

/-- The environment for the concrete revert scenario: the off-chain call
reverts (only) at block 8 = 9 - 1 with payload `0xe450d38c`. -/
def c5Env : UnwrapEnv :=
  { noopUnwrapEnv with
    getTransactionReceipt := fun _ => .ok (some ⟨0, 9⟩)
    getTransaction := fun _ =>
      .ok ⟨strB "0xwbtb", strB "0xcd", [0, 0, 0, 0], 0, 50000, 7⟩
    ethCall := fun _ bn =>
      if bn = 8 then .error (renderRevert [228, 80, 211, 140]) else .ok () }

/-- Closed instance of `C5_revert_inspection` at the concrete revert
scenario. -/
theorem C5_revert_inspection_witness :
    (unwrapStage1Step c5Env 0 c5Tx).status = .FAILED_INSUFFICIENT_FUNDS := by
  exact (C5_revert_inspection c5Env 0 c5Tx ⟨0, 9⟩
      ⟨strB "0xwbtb", strB "0xcd", [0, 0, 0, 0], 0, 50000, 7⟩
      [228, 80, 211, 140] (renderRevert [228, 80, 211, 140])
      rfl rfl rfl rfl rfl (by decide)).1.mpr (by decide)

-- C3: the MIN_AMOUNT gate at admission.

/-- An unwrap admission environment decoding a valid burn of
`50000000` base units (0.5 BTB, below `MIN_AMOUNT = 1`). -/
def c3AdmitEnv : UnwrapAdmitEnv :=
  { decodeSignedTx := fun _ =>
      .ok ⟨strB "0xWBTB", strB "0xcd", [98, 117, 114, 110]⟩
    toChecksum := fun a => a
    decodeFunctionInput := fun _ => .ok (50000000, strB "unw:w3-maddr")
    keccak := fun l => l
    wbtbAddress := strB "0xWBTB" }

/-- C3 counterexample: a signed burn for 0.5 BTB — below `MIN_AMOUNT` —
submitted to `/initiate-unwrap/` is admitted with a 200 response and a
record is created; the endpoint never checks the amount. -/
theorem C3_below_min_unwrap_admitted :
    ((50000000 : ℚ) / (TokenUnit : ℚ) < MIN_AMOUNT) ∧
    (initiateUnwrap c3AdmitEnv [] [] (strB "rawburn")).1
      = .ok (strB "rawburn") ∧
    (initiateUnwrap c3AdmitEnv [] [] (strB "rawburn")).2.1
      = [newUnwrapRec (strB "rawburn") (strB "w3") (strB "maddr")
          (strB "0xcd") ((50000000 : ℚ) / (TokenUnit : ℚ))] := by
  refine ⟨by decide, rfl, rfl⟩

/-- C3 as amended: a wrap submission whose bridged amount is below
`MIN_AMOUNT` is rejected at admission with HTTP 400 and no record; an
unwrap submission is not amount-checked at admission — instead the
engine's first sweep moves a below-minimum burn (once its receipt
succeeds) to the terminal state `FAILED_INSUFFICIENT_AMOUNT`. -/
theorem C3_min_amount_enforcement (wenv : WrapAdmitEnv) (s : Str)
    (db : List WrapTx) (uenv : UnwrapEnv) (now : ℚ) (tx : UnwrapTx)
    (rcpt : EthReceipt) (ethTx : EthTx) (burnt : ℕ) (dataBytes : List Nat) :
    (∀ vouts, wenv.decodeRawTransaction s = .ok vouts →
      bridgedSum wenv.bridgeBtbAddress vouts < MIN_AMOUNT →
      ∃ e, initiateWrap wenv s db = .error e) ∧
    (uenv.getTransactionReceipt tx.ethTxHash = .ok (some rcpt) →
      rcpt.status = 1 →
      uenv.getTransaction tx.ethTxHash = .ok ethTx →
      ethTx.input.take 4 = burnSelector uenv.keccak →
      uenv.decodeFunctionInput ethTx.input = .ok (burnt, dataBytes) →
      (burnt : ℚ) / (TokenUnit : ℚ) < MIN_AMOUNT →
      (unwrapStage1Step uenv now tx).status = .FAILED_INSUFFICIENT_AMOUNT) := by
  constructor
  · intro vouts hdec hlt
    simp only [initiateWrap, hdec]
    repeat' split
    all_goals first
      | exact ⟨_, rfl⟩
      | exact absurd hlt (by assumption)
  · intro h0 h1 h2 hsel hdec hlt
    simp [unwrapStage1Step, h0, h1, h2, hsel, hdec, hlt]

/-- A wrap admission environment whose decoded deposit pays only 0.5 BTB
to the bridge address, with payload `wrp:w1-ab`. -/
def c3WrapEnv : WrapAdmitEnv :=
  { decodeRawTransaction := fun _ =>
      .ok [⟨0, strB "nulldata", strB "OP_RETURN 7772703a77312d6162", none⟩,
           ⟨1 / 2, strB "pubkeyhash", strB "", some (strB "bridge")⟩]
    sendRawTransaction := fun _ => .ok (strB "t3")
    bridgeBtbAddress := strB "bridge" }

/-- An unwrap engine environment whose burn receipt succeeded but whose
decoded burn amount is 0.5 BTB, below the minimum. -/
def c3EngineEnv : UnwrapEnv :=
  { noopUnwrapEnv with
    getTransactionReceipt := fun _ => .ok (some ⟨1, 5⟩)
    getTransaction := fun _ =>
      .ok ⟨strB "0xWBTB", strB "0xcd", [98, 117, 114, 110], 0, 50000, 7⟩
    decodeFunctionInput := fun _ => .ok (50000000, strB "unw:w3-maddr") }

/-- A below-minimum unwrap record sitting in the initiated state. -/
def c3UnwrapTx : UnwrapTx :=
  newUnwrapRec (strB "b3") (strB "w3") (strB "maddr") (strB "0xcd")
    ((50000000 : ℚ) / (TokenUnit : ℚ))

/-- Closed instance of `C3_min_amount_enforcement` on the concrete
below-minimum wrap and unwrap scenarios. -/
theorem C3_min_amount_enforcement_witness :
    (∃ e, initiateWrap c3WrapEnv (strB "rawdeposit") [] = .error e) ∧
    (unwrapStage1Step c3EngineEnv 0 c3UnwrapTx).status
      = .FAILED_INSUFFICIENT_AMOUNT := by
  constructor
  · exact (C3_min_amount_enforcement c3WrapEnv (strB "rawdeposit") []
      c3EngineEnv 0 c3UnwrapTx ⟨1, 5⟩
      ⟨strB "0xWBTB", strB "0xcd", [98, 117, 114, 110], 0, 50000, 7⟩
      50000000 (strB "unw:w3-maddr")).1 _ rfl (by decide)
  · exact (C3_min_amount_enforcement c3WrapEnv (strB "rawdeposit") []
      c3EngineEnv 0 c3UnwrapTx ⟨1, 5⟩
      ⟨strB "0xWBTB", strB "0xcd", [98, 117, 114, 110], 0, 50000, 7⟩
      50000000 (strB "unw:w3-maddr")).2 rfl rfl rfl (by decide) rfl
      (by decide)

-- C8: staging within a single scheduler tick.

/-- A wrap environment in which the deposit is confirmed, the mint
broadcast succeeds, and the mint receipt already reports success. -/
def c8Env : WrapEnv :=
  { getBtbConfirmations := fun _ => .ok 1
    mintBroadcast := fun _ _ => .ok (strB "h8")
    getTransactionReceipt := fun _ => .ok (some ⟨1, 5⟩) }

/-- A freshly admitted deposit record for the cascade scenario. -/
def c8Tx : WrapTx := newWrapRec (strB "t8") (strB "w8") (strB "0xab") 150

/-- C8 counterexample: a record that starts a tick in
`WRAP_BTB_TRANSACTION_BROADCASTED` ends the same tick in
`WRAP_COMPLETED` — it was advanced by the first sweep and then processed
again by the second sweep of that very tick, which the claim rules out. -/
theorem C8_record_cascades_within_one_tick :
    c8Tx.status = .WRAP_BTB_TRANSACTION_BROADCASTED ∧
    (wrapTick c8Env 0 [c8Tx]).map WrapTx.status = [.WRAP_COMPLETED] := by
  constructor
  · decide
  · decide

/-- C8 as amended: each stage's sweep runs on the table committed by the
previous stage of the same tick, so a record the first wrap sweep
advances to `WBTB_MINTING_IN_PROGRESS` is selected and processed by the
second sweep within that same tick (its governor state having been reset
by the successful advance); each advance is still committed before the
next stage runs. -/
theorem C8_fresh_advance_processed_same_tick (env : WrapEnv) (now : ℚ)
    (tx : WrapTx)
    (h1 : tx.status = .WRAP_BTB_TRANSACTION_BROADCASTED)
    (h2 : wrapShouldProcess tx now = true)
    (h3 : (wrapStage1Step env now tx).status = .WBTB_MINTING_IN_PROGRESS) :
    wrapTick env now [tx]
      = [wrapStage2Step env now (wrapStage1Step env now tx)] ∧
    wrapShouldProcess (wrapStage1Step env now tx) now = true := by
  have hgate : wrapShouldProcess (wrapStage1Step env now tx) now = true := by
    cases hc : env.getBtbConfirmations tx.btbTxId with
    | error e =>
      exfalso
      simp only [wrapStage1Step, hc, wrapUpdateException,
        updateExceptionDetails] at h3
      by_cases hm : min (sumCounts (bumpCount (loadCounts tx.excDetails) e))
          MAX_ATTEMPTS = MAX_ATTEMPTS <;> simp [hm, h1] at h3
    | ok conf =>
      by_cases hk : conf ≥ CONFIRMATIONS_REQUIRED
      · cases hb : env.mintBroadcast (ensureHexPfx tx.receivingAddress)
            (wrapMintSatoshis tx.amount) with
        | error e =>
          exfalso
          simp only [wrapStage1Step, hc, if_pos hk, hb, wrapUpdateException,
            updateExceptionDetails] at h3
          by_cases hm : min (sumCounts (bumpCount (loadCounts tx.excDetails) e))
              MAX_ATTEMPTS = MAX_ATTEMPTS <;> simp [hm, h1] at h3
        | ok h =>
          simp only [wrapStage1Step, hc, if_pos hk, hb, wrapReset]
          simp [wrapShouldProcess, shouldProcessGov]
      · exfalso
        simp only [wrapStage1Step, hc, if_neg hk] at h3
        simp [h1] at h3
  have hinner : wrapStageStep .WRAP_BTB_TRANSACTION_BROADCASTED
      (wrapStage1Step env now) now tx = wrapStage1Step env now tx := by
    unfold wrapStageStep
    rw [if_pos h1, if_pos h2]
  have houter : wrapStageStep .WBTB_MINTING_IN_PROGRESS
      (wrapStage2Step env now) now (wrapStage1Step env now tx)
      = wrapStage2Step env now (wrapStage1Step env now tx) := by
    unfold wrapStageStep
    rw [if_pos h3, if_pos hgate]
  refine ⟨?_, hgate⟩
  unfold wrapTick wrapStage
  simp only [List.map_cons, List.map_nil, hinner, houter]

/-- Closed instance of `C8_fresh_advance_processed_same_tick` at the
concrete cascade scenario. -/
theorem C8_fresh_advance_processed_same_tick_witness :
    wrapTick c8Env 0 [c8Tx]
      = [wrapStage2Step c8Env 0 (wrapStage1Step c8Env 0 c8Tx)] := by
  exact (C8_fresh_advance_processed_same_tick c8Env 0 c8Tx (by decide)
    (by decide) (by decide)).1

-- C9: idempotence of unwrap admission.

/-- C9: submitting the same valid signed burn twice, the first admission
broadcasts and inserts a record whose hash is the keccak of the signed
bytes; the second admission hits "already known", derives the same hash
locally, and is rejected by the unique index on `eth_tx_hash`, so exactly
one record with that hash ever exists. -/
theorem C9_unwrap_admission_idempotent (env : UnwrapAdmitEnv)
    (mp : List (List Nat)) (db : List UnwrapTx) (bytes : List Nat)
    (dtx : DecodedEthTx) (burnt : ℕ) (dataBytes : List Nat)
    (walletId btbRecv : Str)
    (hdec : env.decodeSignedTx bytes = .ok dtx)
    (hto : env.toChecksum dtx.toAddr = env.toChecksum env.wbtbAddress)
    (hsel : dtx.data.take 4 = burnSelector env.keccak)
    (hinput : env.decodeFunctionInput dtx.data = .ok (burnt, dataBytes))
    (hascii : decodeAsciiB dataBytes = some dataBytes)
    (hparse : parsePayload dataBytes = some (walletId, btbRecv))
    (hmem : bytes ∉ mp)
    (hdup : ∀ r ∈ db, r.ethTxHash ≠ env.keccak bytes) :
    initiateUnwrap env mp db bytes
      = (.ok (env.keccak bytes),
         db ++ [newUnwrapRec (env.keccak bytes) walletId btbRecv
           (env.toChecksum dtx.sender) ((burnt : ℚ) / (TokenUnit : ℚ))],
         bytes :: mp) ∧
    (initiateUnwrap env (bytes :: mp)
        (db ++ [newUnwrapRec (env.keccak bytes) walletId btbRecv
          (env.toChecksum dtx.sender) ((burnt : ℚ) / (TokenUnit : ℚ))])
        bytes).1 = .error (strB "IntegrityError") ∧
    (initiateUnwrap env (bytes :: mp)
        (db ++ [newUnwrapRec (env.keccak bytes) walletId btbRecv
          (env.toChecksum dtx.sender) ((burnt : ℚ) / (TokenUnit : ℚ))])
        bytes).2.1
      = db ++ [newUnwrapRec (env.keccak bytes) walletId btbRecv
          (env.toChecksum dtx.sender) ((burnt : ℚ) / (TokenUnit : ℚ))] ∧
    ((db ++ [newUnwrapRec (env.keccak bytes) walletId btbRecv
        (env.toChecksum dtx.sender) ((burnt : ℚ) / (TokenUnit : ℚ))]).filter
      (fun r => decide (r.ethTxHash = env.keccak bytes))).length = 1 := by
  have hany : (db.any fun r => decide (r.ethTxHash = env.keccak bytes))
      = false := by
    rw [List.any_eq_false]
    intro r hr
    simpa using hdup r hr
  have hto' : ¬ env.toChecksum dtx.toAddr ≠ env.toChecksum env.wbtbAddress :=
    not_not_intro hto
  have hak : hasSub (strB "already known") (strB "already known") = true := by
    decide
  have hfilter : ((db ++ [newUnwrapRec (env.keccak bytes) walletId btbRecv
      (env.toChecksum dtx.sender) ((burnt : ℚ) / (TokenUnit : ℚ))]).filter
        (fun r => decide (r.ethTxHash = env.keccak bytes))).length = 1 := by
    rw [List.filter_append]
    have h1 : db.filter (fun r => decide (r.ethTxHash = env.keccak bytes))
        = [] := by
      rw [List.filter_eq_nil_iff]
      intro r hr
      simpa using hdup r hr
    rw [h1]
    simp [newUnwrapRec]
  refine ⟨?_, ?_, ?_, hfilter⟩
  · simp only [initiateUnwrap, hdec, if_neg hto', hsel, if_pos rfl, hinput,
      hascii, hparse, ethSendRaw, if_neg hmem, hany, Bool.false_eq_true,
      if_neg (Bool.false_ne_true)]
    simp
  · have hany2 : ((db ++ [newUnwrapRec (env.keccak bytes) walletId btbRecv
        (env.toChecksum dtx.sender) ((burnt : ℚ) / (TokenUnit : ℚ))]).any
          fun r => decide (r.ethTxHash = env.keccak bytes)) = true := by
      rw [List.any_append]
      simp [newUnwrapRec]
    simp only [initiateUnwrap, hdec, if_neg hto', hsel, if_pos rfl, hinput,
      hascii, hparse, ethSendRaw, List.mem_cons, true_or, if_pos, hak,
      if_true, hany2]
  · have hany2 : ((db ++ [newUnwrapRec (env.keccak bytes) walletId btbRecv
        (env.toChecksum dtx.sender) ((burnt : ℚ) / (TokenUnit : ℚ))]).any
          fun r => decide (r.ethTxHash = env.keccak bytes)) = true := by
      rw [List.any_append]
      simp [newUnwrapRec]
    simp only [initiateUnwrap, hdec, if_neg hto', hsel, if_pos rfl, hinput,
      hascii, hparse, ethSendRaw, List.mem_cons, true_or, if_pos, hak,
      if_true, hany2]

/-- An admission environment for the concrete duplicate-submission
scenario (identity checksum and keccak oracles). -/
def c9Env : UnwrapAdmitEnv :=
  { decodeSignedTx := fun _ =>
      .ok ⟨strB "0xWBTB", strB "0xcd", [98, 117, 114, 110]⟩
    toChecksum := fun a => a
    decodeFunctionInput := fun _ => .ok (150000000, strB "unw:w9-maddr")
    keccak := fun l => l
    wbtbAddress := strB "0xWBTB" }

/-- Closed instance of `C9_unwrap_admission_idempotent`: the same signed
burn submitted twice against an empty table yields one admitted record
and one `IntegrityError` rejection. -/
theorem C9_unwrap_admission_idempotent_witness :
    initiateUnwrap c9Env [] [] (strB "raw9")
      = (.ok (strB "raw9"),
         [newUnwrapRec (strB "raw9") (strB "w9") (strB "maddr") (strB "0xcd")
           ((150000000 : ℚ) / (TokenUnit : ℚ))],
         [strB "raw9"]) ∧
    (initiateUnwrap c9Env [strB "raw9"]
        [newUnwrapRec (strB "raw9") (strB "w9") (strB "maddr") (strB "0xcd")
          ((150000000 : ℚ) / (TokenUnit : ℚ))] (strB "raw9")).1
      = .error (strB "IntegrityError") := by
  have h := C9_unwrap_admission_idempotent c9Env [] [] (strB "raw9")
    ⟨strB "0xWBTB", strB "0xcd", [98, 117, 114, 110]⟩ 150000000
    (strB "unw:w9-maddr") (strB "w9") (strB "maddr") rfl rfl (by decide) rfl
    (by decide) (by decide) (by decide) (by simp)
  exact ⟨by simpa using h.1, by simpa using h.2.1⟩

-- C1: conservation of value.

/-- An amount that is a whole number of base units (a satoshi multiple),
as every value decoded from the native chain is. -/
def SatMulVal (q : ℚ) : Prop := ∃ n : ℤ, q * (TokenUnit : ℚ) = (n : ℚ)

/-- Satoshi multiples are closed under addition. -/
theorem satMulVal_add {a b : ℚ} (ha : SatMulVal a) (hb : SatMulVal b) :
    SatMulVal (a + b) := by
  obtain ⟨m, hm⟩ := ha
  obtain ⟨n, hn⟩ := hb
  exact ⟨m + n, by push_cast; rw [add_mul, hm, hn]⟩

/-- Satoshi multiples are closed under list sums. -/
theorem satMulVal_sum (l : List ℚ) (h : ∀ x ∈ l, SatMulVal x) :
    SatMulVal l.sum := by
  induction l with
  | nil => exact ⟨0, by simp⟩
  | cons a l ih =>
    rw [List.sum_cons]
    exact satMulVal_add (h a (by simp))
      (ih fun x hx => h x (by simp [hx]))

/-- Python `int()` is the identity on integers. -/
theorem pyInt_intCast (n : ℤ) : pyInt ((n : ℚ)) = n := by
  have hf : ((n : ℚ)).floor = n := by
    unfold Rat.floor
    rw [if_pos (Rat.intCast_den n), Rat.intCast_num]
  have hc : ((n : ℚ)).ceil = n := by
    unfold Rat.ceil
    rw [if_pos (Rat.intCast_den n), Rat.intCast_num]
  unfold pyInt
  split <;> simp [hf, hc]

/-- On a satoshi-multiple deposit, the persisted minted amount
`satoshis / TokenUnit` is exactly `deposit − ETH_FEE_IN_WBTB` whole
coins. -/
theorem minted_eq_of_satMul {amount : ℚ} (h : SatMulVal amount) :
    ((wrapMintSatoshis amount : ℤ) : ℚ) / (TokenUnit : ℚ)
      = amount - (ETH_FEE_IN_WBTB : ℚ) := by
  obtain ⟨n, hn⟩ := h
  have hU : (TokenUnit : ℚ) ≠ 0 := by norm_num [TokenUnit]
  have hpy : pyInt (amount * (TokenUnit : ℚ)) = n := by
    rw [hn]
    exact pyInt_intCast n
  unfold wrapMintSatoshis
  rw [hpy]
  push_cast
  rw [← hn]
  field_simp
  ring

/-- The governor's failure path never touches the business columns of a
wrap row. -/
theorem wrapUpdateException_amount (tx : WrapTx) (e : Str) (now : ℚ) :
    (wrapUpdateException tx e now).amount = tx.amount := rfl

/-- The governor's failure path never touches the minted amount. -/
theorem wrapUpdateException_minted (tx : WrapTx) (e : Str) (now : ℚ) :
    (wrapUpdateException tx e now).mintedWbtbAmount = tx.mintedWbtbAmount :=
  rfl

/-- The governor's failure path leaves the status alone or fails the
record permanently. -/
theorem wrapUpdateException_status (tx : WrapTx) (e : Str) (now : ℚ) :
    (wrapUpdateException tx e now).status = tx.status ∨
    (wrapUpdateException tx e now).status
      = .FAILED_TRANSACTION_MAX_ATTEMPTS := by
  simp only [wrapUpdateException, updateExceptionDetails]
  split <;> simp

/-- The governor's failure path never touches the business columns of an
unwrap row. -/
theorem unwrapUpdateException_amount (tx : UnwrapTx) (e : Str) (now : ℚ) :
    (unwrapUpdateException tx e now).amount = tx.amount := rfl

/-- The governor's failure path never touches the sent amount. -/
theorem unwrapUpdateException_sent (tx : UnwrapTx) (e : Str) (now : ℚ) :
    (unwrapUpdateException tx e now).sentBtbAmount = tx.sentBtbAmount := rfl

/-- The governor's failure path leaves the status alone or fails the
record permanently. -/
theorem unwrapUpdateException_status (tx : UnwrapTx) (e : Str) (now : ℚ) :
    (unwrapUpdateException tx e now).status = tx.status ∨
    (unwrapUpdateException tx e now).status
      = .FAILED_TRANSACTION_MAX_ATTEMPTS := by
  simp only [unwrapUpdateException, updateExceptionDetails]
  split <;> simp

/-- Conservation invariant of a wrap row: its deposit is a satoshi
multiple, and once it has passed the mint issue its persisted minted
amount is the deposit minus the wrap fee, in whole coins. -/
def WrapConserved (r : WrapTx) : Prop :=
  SatMulVal r.amount ∧
  ((r.status = .WBTB_MINTING_IN_PROGRESS ∨ r.status = .WRAP_COMPLETED) →
    r.mintedWbtbAmount = some (r.amount - (ETH_FEE_IN_WBTB : ℚ)))

/-- Conservation invariant of an unwrap row: once the native release has
been broadcast, the persisted sent amount is the burn amount minus the
native fee. -/
def UnwrapConserved (u : UnwrapTx) : Prop :=
  (u.status = .UNWRAP_BTB_TRANSACTION_BROADCASTED ∨
      u.status = .UNWRAP_COMPLETED) →
    ∃ a, u.amount = some a ∧ u.sentBtbAmount = some (a - BTB_FEE)

/-- A record whose status is outside the guarded set satisfies the unwrap
invariant vacuously. -/
theorem unwrapConserved_of_status (u : UnwrapTx)
    (h1 : u.status ≠ .UNWRAP_BTB_TRANSACTION_BROADCASTED)
    (h2 : u.status ≠ .UNWRAP_COMPLETED) : UnwrapConserved u := by
  intro hc
  rcases hc with hc | hc <;> contradiction

/-- The first wrap sweep preserves the conservation invariant. -/
theorem wrapStage1Step_conserved (env : WrapEnv) (now : ℚ) (r : WrapTx)
    (h : WrapConserved r)
    (hst : r.status = .WRAP_BTB_TRANSACTION_BROADCASTED) :
    WrapConserved (wrapStage1Step env now r) := by
  obtain ⟨hsm, -⟩ := h
  cases hc : env.getBtbConfirmations r.btbTxId with
  | error e =>
    simp only [wrapStage1Step, hc]
    refine ⟨by rw [wrapUpdateException_amount]; exact hsm, ?_⟩
    intro hcase
    exfalso
    rcases wrapUpdateException_status r e now with h' | h' <;>
      rw [h'] at hcase <;> rcases hcase with hc2 | hc2 <;> simp_all
  | ok conf =>
    by_cases hk : conf ≥ CONFIRMATIONS_REQUIRED
    · cases hb : env.mintBroadcast (ensureHexPfx r.receivingAddress)
          (wrapMintSatoshis r.amount) with
      | error e =>
        simp only [wrapStage1Step, hc, if_pos hk, hb]
        refine ⟨by rw [wrapUpdateException_amount]; exact hsm, ?_⟩
        intro hcase
        exfalso
        rcases wrapUpdateException_status _ e now with h' | h' <;>
          rw [h'] at hcase <;> rcases hcase with hc2 | hc2 <;> simp_all
      | ok hh =>
        simp only [wrapStage1Step, hc, if_pos hk, hb, wrapReset]
        refine ⟨hsm, ?_⟩
        intro _
        simp only [Option.some.injEq]
        exact minted_eq_of_satMul hsm
    · simp only [wrapStage1Step, hc, if_neg hk]
      refine ⟨hsm, ?_⟩
      intro hcase
      rcases hcase with hc2 | hc2 <;> simp_all

/-- The second wrap sweep preserves the conservation invariant. -/
theorem wrapStage2Step_conserved (env : WrapEnv) (now : ℚ) (r : WrapTx)
    (h : WrapConserved r)
    (hst : r.status = .WBTB_MINTING_IN_PROGRESS) :
    WrapConserved (wrapStage2Step env now r) := by
  obtain ⟨hsm, hmint⟩ := h
  have hm : r.mintedWbtbAmount = some (r.amount - (ETH_FEE_IN_WBTB : ℚ)) :=
    hmint (Or.inl hst)
  cases hrc : env.getTransactionReceipt r.ethTxHash with
  | error e =>
    simp only [wrapStage2Step, hrc]
    refine ⟨by rw [wrapUpdateException_amount]; exact hsm, ?_⟩
    intro _
    rw [wrapUpdateException_minted, wrapUpdateException_amount]
    exact hm
  | ok rr =>
    cases rr with
    | none =>
      simp only [wrapStage2Step, hrc, wrapReset]
      exact ⟨hsm, fun hcase => by rcases hcase with hc2 | hc2 <;> simp_all⟩
    | some rcpt =>
      by_cases hs : rcpt.status = 1 <;>
        simp only [wrapStage2Step, hrc, if_pos, if_neg, hs, wrapReset] <;>
        exact ⟨hsm, fun _ => hm⟩

/-- One full wrap tick preserves the conservation invariant of every
record. -/
theorem wrapTickRecord_conserved (env : WrapEnv) (now : ℚ) (r : WrapTx)
    (h : WrapConserved r) : WrapConserved (wrapTickRecord env now r) := by
  have step1 : ∀ x, WrapConserved x →
      WrapConserved (wrapStageStep .WRAP_BTB_TRANSACTION_BROADCASTED
        (wrapStage1Step env now) now x) := by
    intro x hx
    unfold wrapStageStep
    split
    · split
      · exact wrapStage1Step_conserved env now x hx (by assumption)
      · exact hx
    · exact hx
  have step2 : ∀ x, WrapConserved x →
      WrapConserved (wrapStageStep .WBTB_MINTING_IN_PROGRESS
        (wrapStage2Step env now) now x) := by
    intro x hx
    unfold wrapStageStep
    split
    · split
      · exact wrapStage2Step_conserved env now x hx (by assumption)
      · exact hx
    · exact hx
  exact step2 _ (step1 _ h)

/-- Exception handling preserves the unwrap invariant when the record is
not yet past the native broadcast. -/
theorem unwrapUpdateException_conserved (tx : UnwrapTx) (e : Str) (now : ℚ)
    (hst : tx.status ≠ .UNWRAP_BTB_TRANSACTION_BROADCASTED ∧
      tx.status ≠ .UNWRAP_COMPLETED) :
    UnwrapConserved (unwrapUpdateException tx e now) := by
  apply unwrapConserved_of_status <;>
    rcases unwrapUpdateException_status tx e now with h' | h' <;>
    rw [h'] <;> simp [hst.1, hst.2]

/-- The first unwrap sweep preserves the conservation invariant. -/
theorem unwrapStage1Step_conserved (env : UnwrapEnv) (now : ℚ)
    (tx : UnwrapTx)
    (hst : tx.status = .UNWRAP_ETH_TRANSACTION_INITIATED) :
    UnwrapConserved (unwrapStage1Step env now tx) := by
  have hne : tx.status ≠ .UNWRAP_BTB_TRANSACTION_BROADCASTED ∧
      tx.status ≠ .UNWRAP_COMPLETED := by rw [hst]; exact ⟨by decide, by decide⟩
  unfold unwrapStage1Step
  repeat' split
  all_goals first
    | exact unwrapUpdateException_conserved _ _ _ hne
    | exact unwrapConserved_of_status _ hne.1 hne.2
    | (apply unwrapConserved_of_status <;>
        solve
          | simp [unwrapReset, hst]
          | (rcases unwrapUpdateException_status _ _ _ with h' | h' <;>
              rw [h'] <;> simp [hst])
          | (simp only [ne_eq]
             split <;> solve
              | simp [unwrapReset, hst]
              | (rcases unwrapUpdateException_status _ _ _ with h' | h' <;>
                  rw [h'] <;> simp [hst])))

/-- The second unwrap sweep preserves the conservation invariant. -/
theorem unwrapStage2Step_conserved (env : UnwrapEnv) (now : ℚ)
    (tx : UnwrapTx)
    (hst : tx.status = .UNWRAP_ETH_TRANSACTION_CONFIRMING) :
    UnwrapConserved (unwrapStage2Step env now tx) := by
  have hne : tx.status ≠ .UNWRAP_BTB_TRANSACTION_BROADCASTED ∧
      tx.status ≠ .UNWRAP_COMPLETED := by rw [hst]; exact ⟨by decide, by decide⟩
  unfold unwrapStage2Step
  repeat' split
  all_goals first
    | exact unwrapUpdateException_conserved _ _ _ hne
    | exact unwrapConserved_of_status _ hne.1 hne.2
    | (apply unwrapConserved_of_status <;>
        first
          | simp [unwrapReset, hst]
          | (rcases unwrapUpdateException_status _ _ _ with h' | h' <;>
              rw [h'] <;> simp [hst]))

/-- The third unwrap sweep preserves the conservation invariant: on the
broadcast path it persists `sent_btb_amount = burn_amount − BTB_FEE`. -/
theorem unwrapStage3Step_conserved (env : UnwrapEnv) (now : ℚ)
    (tx : UnwrapTx)
    (hst : tx.status = .UNWRAP_ETH_TRANSACTION_CONFIRMED) :
    UnwrapConserved (unwrapStage3Step env now tx) := by
  have hne : tx.status ≠ .UNWRAP_BTB_TRANSACTION_BROADCASTED ∧
      tx.status ≠ .UNWRAP_COMPLETED := by rw [hst]; exact ⟨by decide, by decide⟩
  cases hamt : tx.amount with
  | none =>
    simp only [unwrapStage3Step, hamt]
    exact unwrapUpdateException_conserved _ _ _ hne
  | some amt =>
    simp only [unwrapStage3Step, hamt]
    repeat' split
    all_goals first
      | exact unwrapUpdateException_conserved _ _ _ hne
      | (apply unwrapConserved_of_status <;>
          (rcases unwrapUpdateException_status _ _ _ with h' | h' <;>
            rw [h'] <;> simp [hst]))
      | (intro _; exact ⟨amt, by simp [unwrapReset], by simp [unwrapReset]⟩)

/-- The fourth unwrap sweep preserves the conservation invariant. -/
theorem unwrapStage4Step_conserved (env : UnwrapEnv) (now : ℚ)
    (tx : UnwrapTx) (h : UnwrapConserved tx)
    (hst : tx.status = .UNWRAP_BTB_TRANSACTION_BROADCASTED) :
    UnwrapConserved (unwrapStage4Step env now tx) := by
  obtain ⟨a, ha, hs⟩ := h (Or.inl hst)
  unfold unwrapStage4Step
  cases hc : env.getBtbConfirmations (tx.btbTxId.getD (strB "None")) with
  | error e =>
    intro _
    exact ⟨a, by rw [unwrapUpdateException_amount]; exact ha,
      by rw [unwrapUpdateException_sent]; exact hs⟩
  | ok conf =>
    by_cases hk : conf ≥ CONFIRMATIONS_REQUIRED
    · simp only [if_pos hk, unwrapReset]
      intro _
      exact ⟨a, ha, hs⟩
    · simp only [if_neg hk, unwrapReset]
      intro _
      exact ⟨a, ha, hs⟩

/-- A tick is a record-wise map (stages compose through the committed
table). -/
theorem wrapTick_eq_map (env : WrapEnv) (now : ℚ) (db : List WrapTx) :
    wrapTick env now db = db.map (wrapTickRecord env now) := by
  simp [wrapTick, wrapStage, wrapTickRecord, List.map_map]

/-- A tick of the unwrap engine is a record-wise map. -/
theorem unwrapTick_eq_map (env : UnwrapEnv) (now : ℚ) (db : List UnwrapTx) :
    unwrapTick env now db = db.map (unwrapTickRecord env now) := by
  simp [unwrapTick, unwrapStage, unwrapTickRecord, List.map_map]

/-- One full unwrap tick preserves the conservation invariant of every
record. -/
theorem unwrapTickRecord_conserved (env : UnwrapEnv) (now : ℚ)
    (u : UnwrapTx) (h : UnwrapConserved u) :
    UnwrapConserved (unwrapTickRecord env now u) := by
  have s1 : ∀ x, UnwrapConserved x →
      UnwrapConserved (unwrapStageStep .UNWRAP_ETH_TRANSACTION_INITIATED
        (unwrapStage1Step env now) now x) := by
    intro x hx
    unfold unwrapStageStep
    split
    · split
      · exact unwrapStage1Step_conserved env now x (by assumption)
      · exact hx
    · exact hx
  have s2 : ∀ x, UnwrapConserved x →
      UnwrapConserved (unwrapStageStep .UNWRAP_ETH_TRANSACTION_CONFIRMING
        (unwrapStage2Step env now) now x) := by
    intro x hx
    unfold unwrapStageStep
    split
    · split
      · exact unwrapStage2Step_conserved env now x (by assumption)
      · exact hx
    · exact hx
  have s3 : ∀ x, UnwrapConserved x →
      UnwrapConserved (unwrapStageStep .UNWRAP_ETH_TRANSACTION_CONFIRMED
        (unwrapStage3Step env now) now x) := by
    intro x hx
    unfold unwrapStageStep
    split
    · split
      · exact unwrapStage3Step_conserved env now x (by assumption)
      · exact hx
    · exact hx
  have s4 : ∀ x, UnwrapConserved x →
      UnwrapConserved (unwrapStageStep .UNWRAP_BTB_TRANSACTION_BROADCASTED
        (unwrapStage4Step env now) now x) := by
    intro x hx
    unfold unwrapStageStep
    split
    · split
      · exact unwrapStage4Step_conserved env now x hx (by assumption)
      · exact hx
    · exact hx
  exact s4 _ (s3 _ (s2 _ (s1 _ h)))

/-- A wrap admission environment whose decoded deposit values are all
whole numbers of base units, as chain-decoded decimal amounts are. -/
def WrapAdmitValuesOK (env : WrapAdmitEnv) : Prop :=
  ∀ s vouts, env.decodeRawTransaction s = .ok vouts →
    ∀ v ∈ vouts, SatMulVal v.value

/-- Wrap tables reachable by the system: empty at start, grown only by
`/initiate-wrap/` admissions (over satoshi-denominated deposits) and
mutated only by wrap engine ticks. -/
inductive WrapReach : List WrapTx → Prop
  | nil : WrapReach []
  | admission (env : WrapAdmitEnv) (s : Str) (db : List WrapTx) (idv : Str)
      (db' : List WrapTx) : WrapReach db → WrapAdmitValuesOK env →
      initiateWrap env s db = .ok (idv, db') → WrapReach db'
  | tick (env : WrapEnv) (now : ℚ) (db : List WrapTx) :
      WrapReach db → WrapReach (wrapTick env now db)

/-- Unwrap tables reachable by the system: empty at start, grown only by
`/initiate-unwrap/` admissions and mutated only by unwrap engine ticks. -/
inductive UnwrapReach : List UnwrapTx → Prop
  | nil : UnwrapReach []
  | admission (env : UnwrapAdmitEnv) (mp : List (List Nat)) (bytes : List Nat)
      (db : List UnwrapTx) : UnwrapReach db →
      UnwrapReach (initiateUnwrap env mp db bytes).2.1
  | tick (env : UnwrapEnv) (now : ℚ) (db : List UnwrapTx) :
      UnwrapReach db → UnwrapReach (unwrapTick env now db)

/-- A successful wrap admission appends exactly one fresh record carrying
the bridged sum of the decoded deposit. -/
theorem initiateWrap_ok_inv {env : WrapAdmitEnv} {s : Str} {db : List WrapTx}
    {idv : Str} {db' : List WrapTx}
    (h : initiateWrap env s db = .ok (idv, db')) :
    ∃ vouts walletId recvAddr,
      env.decodeRawTransaction s = .ok vouts ∧
      db' = db ++ [newWrapRec idv walletId recvAddr
        (bridgedSum env.bridgeBtbAddress vouts)] := by
  simp only [initiateWrap] at h
  repeat' split at h
  all_goals simp at h
  obtain ⟨h1, h2⟩ := h
  subst h1
  exact ⟨_, _, _, by assumption, h2.symm⟩

/-- An unwrap admission either leaves the table unchanged or appends
exactly one fresh record. -/
theorem initiateUnwrap_db_inv (env : UnwrapAdmitEnv) (mp : List (List Nat))
    (db : List UnwrapTx) (bytes : List Nat) :
    (initiateUnwrap env mp db bytes).2.1 = db ∨
    ∃ hh w r snd amt, (initiateUnwrap env mp db bytes).2.1
      = db ++ [newUnwrapRec hh w r snd amt] := by
  simp only [initiateUnwrap]
  repeat' split
  all_goals first
    | exact Or.inl rfl
    | exact Or.inr ⟨_, _, _, _, _, rfl⟩

/-- Every record of a reachable wrap table satisfies the conservation
invariant. -/
theorem wrapReach_conserved {db : List WrapTx} (h : WrapReach db) :
    ∀ r ∈ db, WrapConserved r := by
  induction h with
  | nil => simp
  | admission env s db idv db' hdb hok hins ih =>
    intro r hr
    obtain ⟨vouts, w, ra, hdec, hdb'⟩ := initiateWrap_ok_inv hins
    rw [hdb'] at hr
    rcases List.mem_append.mp hr with hr | hr
    · exact ih r hr
    · have hrr := List.mem_singleton.mp hr
      subst hrr
      constructor
      · apply satMulVal_sum
        intro x hx
        obtain ⟨v, hv, rfl⟩ := List.mem_map.mp hx
        exact hok s vouts hdec v (List.mem_filter.mp hv).1
      · intro hcase
        rcases hcase with hc | hc <;> simp [newWrapRec] at hc
  | tick env now db hdb ih =>
    intro r hr
    rw [wrapTick_eq_map] at hr
    obtain ⟨r0, hr0, rfl⟩ := List.mem_map.mp hr
    exact wrapTickRecord_conserved env now r0 (ih r0 hr0)

/-- Every record of a reachable unwrap table satisfies the conservation
invariant. -/
theorem unwrapReach_conserved {db : List UnwrapTx} (h : UnwrapReach db) :
    ∀ u ∈ db, UnwrapConserved u := by
  induction h with
  | nil => simp
  | admission env mp bytes db hdb ih =>
    intro u hu
    rcases initiateUnwrap_db_inv env mp db bytes with hcase |
        ⟨hh, w, r, snd, amt, hcase⟩
    · rw [hcase] at hu
      exact ih u hu
    · rw [hcase] at hu
      rcases List.mem_append.mp hu with hu | hu
      · exact ih u hu
      · have huu := List.mem_singleton.mp hu
        subst huu
        apply unwrapConserved_of_status <;> simp [newUnwrapRec]
  | tick env now db hdb ih =>
    intro u hu
    rw [unwrapTick_eq_map] at hu
    obtain ⟨u0, hu0, rfl⟩ := List.mem_map.mp hu
    exact unwrapTickRecord_conserved env now u0 (ih u0 hu0)

/-- C1: conservation of value.  In every reachable table, a wrap record
that has reached `WRAP_COMPLETED` has
`minted_wbtb_amount = amount − ETH_FEE_IN_WBTB` (in whole coins), and an
unwrap record that has reached `UNWRAP_COMPLETED` has
`sent_btb_amount = amount − BTB_FEE`. -/
theorem C1_conservation :
    (∀ db, WrapReach db → ∀ r ∈ db, r.status = .WRAP_COMPLETED →
      r.mintedWbtbAmount = some (r.amount - (ETH_FEE_IN_WBTB : ℚ))) ∧
    (∀ db, UnwrapReach db → ∀ u ∈ db, u.status = .UNWRAP_COMPLETED →
      ∃ a, u.amount = some a ∧ u.sentBtbAmount = some (a - BTB_FEE)) := by
  constructor
  · intro db h r hr hst
    exact ((wrapReach_conserved h) r hr).2 (Or.inr hst)
  · intro db h u hu hst
    exact (unwrapReach_conserved h) u hu (Or.inr hst)

-- Concrete end-to-end scenarios instantiating the conservation theorem.

/-- A wrap admission environment decoding a 150 BTB deposit to the bridge
address with payload `wrp:w1-ab` (hex `7772703a77312d6162`). -/
def c1WrapAdmitEnv : WrapAdmitEnv :=
  { decodeRawTransaction := fun _ =>
      .ok [⟨0, strB "nulldata", strB "OP_RETURN 7772703a77312d6162", none⟩,
           ⟨150, strB "pubkeyhash", strB "", some (strB "bridge")⟩]
    sendRawTransaction := fun _ => .ok (strB "t1")
    bridgeBtbAddress := strB "bridge" }

/-- The deposit values of `c1WrapAdmitEnv` are satoshi multiples. -/
theorem c1WrapAdmitEnvOK : WrapAdmitValuesOK c1WrapAdmitEnv := by
  intro s vouts hdec v hv
  simp only [c1WrapAdmitEnv, Except.ok.injEq] at hdec
  subst hdec
  simp only [List.mem_cons, List.not_mem_nil, or_false] at hv
  rcases hv with rfl | rfl
  · exact ⟨0, by norm_num⟩
  · exact ⟨15000000000, by norm_num [TokenUnit]⟩

/-- The wrap table after the 150 BTB admission. -/
def c1AdmittedDb : List WrapTx :=
  [newWrapRec (strB "t1") (strB "w1") (strB "0xab") 150]

/-- The wrap table after the admission and one (cascading) tick. -/
def c1WrapFinalDb : List WrapTx := wrapTick c8Env 0 c1AdmittedDb

/-- The completed wrap record of the concrete scenario: 150 BTB in,
`150 − 100 = 50` WBTB minted. -/
def c1WrapFinalRec : WrapTx :=
  { btbTxId := strB "t1", walletId := strB "w1",
    receivingAddress := strB "0xab", amount := 150,
    status := .WRAP_COMPLETED, ethTxHash := some (strB "h8"),
    mintedWbtbAmount := some 50, excDetails := .counts [],
    exceptionCount := 0, lastExceptionTime := none }

/-- The concrete final wrap table is reachable. -/
theorem c1WrapReach : WrapReach c1WrapFinalDb :=
  WrapReach.tick c8Env 0 c1AdmittedDb
    (WrapReach.admission c1WrapAdmitEnv (strB "raw1") [] (strB "t1") c1AdmittedDb
      WrapReach.nil c1WrapAdmitEnvOK rfl)

/-- An unwrap engine environment driving the admitted burn of 1.5 WBTB
through all four sweeps: receipt success at block 5, current block 6,
one 2 BTB UTXO, release broadcast `n1` confirmed. -/
def c1UnwrapTickEnv : UnwrapEnv :=
  { getTransactionReceipt := fun _ => .ok (some ⟨1, 5⟩)
    getTransaction := fun _ =>
      .ok ⟨strB "0xWBTB", strB "0xcd", [98, 117, 114, 110], 0, 50000, 7⟩
    decodeFunctionInput := fun _ => .ok (150000000, strB "unw:w9-maddr")
    ethCall := fun _ _ => .ok ()
    blockNumber := .ok 6
    listUnspent := fun _ _ => .ok [⟨strB "u1", 0, 2⟩]
    createSignSendBtb := fun _ _ _ => .ok (strB "n1")
    getBtbConfirmations := fun _ => .ok 1
    keccak := fun l => l
    bridgeBtbAddress := strB "bridge" }

/-- The unwrap table after admitting the burn and running one tick. -/
def c1UnwrapFinalDb : List UnwrapTx :=
  unwrapTick c1UnwrapTickEnv 0 (initiateUnwrap c9Env [] [] (strB "raw9")).2.1

/-- The completed unwrap record of the concrete scenario: 1.5 BTB burned,
`1.5 − 0.01 = 1.49` BTB sent. -/
def c1UnwrapFinalRec : UnwrapTx :=
  { ethTxHash := strB "raw9", walletId := some (strB "w9"),
    btbReceivingAddress := some (strB "maddr"), amount := some (3 / 2),
    status := .UNWRAP_COMPLETED, btbTxId := some (strB "n1"),
    ethSender := some (strB "0xcd"), sentBtbAmount := some (149 / 100),
    excDetails := .counts [], exceptionCount := 0, lastExceptionTime := none }

/-- The concrete final unwrap table is reachable. -/
theorem c1UnwrapReach : UnwrapReach c1UnwrapFinalDb :=
  UnwrapReach.tick c1UnwrapTickEnv 0 _
    (UnwrapReach.admission c9Env [] (strB "raw9") [] UnwrapReach.nil)

/-- Closed instance of `C1_conservation` on the two concrete completed
scenarios. -/
theorem C1_conservation_witness :
    c1WrapFinalDb = [c1WrapFinalRec] ∧
    c1WrapFinalRec.status = .WRAP_COMPLETED ∧
    c1WrapFinalRec.mintedWbtbAmount
      = some (c1WrapFinalRec.amount - (ETH_FEE_IN_WBTB : ℚ)) ∧
    c1UnwrapFinalDb = [c1UnwrapFinalRec] ∧
    c1UnwrapFinalRec.status = .UNWRAP_COMPLETED ∧
    (∃ a, c1UnwrapFinalRec.amount = some a ∧
      c1UnwrapFinalRec.sentBtbAmount = some (a - BTB_FEE)) := by
  have hw1 : c1WrapFinalDb = [c1WrapFinalRec] := by decide
  have hu1 : c1UnwrapFinalDb = [c1UnwrapFinalRec] := by decide
  refine ⟨hw1, by decide, ?_, hu1, by decide, ?_⟩
  · exact C1_conservation.1 c1WrapFinalDb c1WrapReach c1WrapFinalRec
      (by rw [hw1]; exact List.mem_singleton_self _) (by decide)
  · exact C1_conservation.2 c1UnwrapFinalDb c1UnwrapReach c1UnwrapFinalRec
      (by rw [hu1]; exact List.mem_singleton_self _) (by decide)

end Bridge
